import Mathlib

/-
Verification development for the partner-billing-app repository.

The TypeScript sources are shallowly embedded: JavaScript strings are lists
of characters, JavaScript numbers are rationals (the claims under study only
exercise exact decimal arithmetic), nullable / possibly-undefined values are
Option, and the insertion-ordered Map / plain-object containers are
association lists with JavaScript Map semantics (update in place, insert at
the end).  Dates are handled through an explicit ISO yyyy-MM-dd parser that
returns the epoch-millisecond timestamp a JavaScript Date would hold.
The locale-aware comparator localeCompare(..., "da") used only for display
sorting is an ICU collation; it is modelled as an explicit comparator
parameter `le`, and every theorem holds for all comparators.
-/

set_option maxHeartbeats 2000000

namespace PartnerBilling

/-- JavaScript strings are modelled as lists of characters. -/
abbrev Str := List Char

/-- Embed a Lean string literal as a character list. -/
def str (s : String) : Str := s.data

/-- Whitespace test used for the regex class \s and for trim. -/
def isWsChar (c : Char) : Bool := c.isWhitespace

/-- Model of String.prototype.toLowerCase (ASCII case mapping). -/
def lowerStr (s : Str) : Str := s.map Char.toLower

/-- Model of String.prototype.trim: drop whitespace from both ends. -/
def trimStr (s : Str) : Str :=
  ((s.dropWhile isWsChar).reverse.dropWhile isWsChar).reverse

/-- Helper for `squashWs`: the flag records whether the previous character was
whitespace, so each maximal whitespace run produces a single space. -/
def squashWsAux : Bool → Str → Str
  | _, [] => []
  | prevWs, c :: rest =>
    if isWsChar c then
      if prevWs then squashWsAux true rest
      else ' ' :: squashWsAux true rest
    else c :: squashWsAux false rest

/-- Model of .replace(/\s+/g, " "): collapse every whitespace run to one space. -/
def squashWs (s : Str) : Str := squashWsAux false s

/-- Model of JavaScript string comparison a < b (lexicographic on code units). -/
def lexLtStr : Str → Str → Bool
  | [], [] => false
  | [], _ :: _ => true
  | _ :: _, [] => false
  | a :: as, b :: bs =>
    if a.val < b.val then true
    else if b.val < a.val then false
    else lexLtStr as bs

/-- Check that `needle` is a leading segment of `hay` (charwise). -/
def leadStr : Str → Str → Bool
  | [], _ => true
  | _ :: _, [] => false
  | a :: as, b :: bs => if a = b then leadStr as bs else false

/-- Model of String.prototype.includes: some suffix of `hay` starts with `needle`. -/
def containsStr (hay needle : Str) : Bool :=
  match hay with
  | [] => leadStr needle []
  | _ :: rest => if leadStr needle hay then true else containsStr rest needle

/-- Model of the JavaScript string coalescing x || y on a possibly-empty string
(the empty string is falsy). -/
def jsOr (a b : Str) : Str := if a = [] then b else a

/-- Model of x || y where x may additionally be undefined. -/
def jsOrOpt (a b : Option Str) : Option Str :=
  match a with
  | some s => if s = [] then b else some s
  | none => b

/-- Lookup in an insertion-ordered association list (first matching key). -/
def alookup {α : Type} : List (Str × α) → Str → Option α
  | [], _ => none
  | (k, v) :: rest, key => if k = key then some v else alookup rest key

/-- JavaScript Map.set / object-spread upsert: replace the value at an existing
key in place, otherwise append the new binding at the end. -/
def aupsert {α : Type} : List (Str × α) → Str → α → List (Str × α)
  | [], key, v => [(key, v)]
  | (k, w) :: rest, key, v =>
    if k = key then (key, v) :: rest else (k, w) :: aupsert rest key v

/-- JavaScript delete obj[key]: drop the binding at `key`. -/
def aremove {α : Type} : List (Str × α) → Str → List (Str × α)
  | [], _ => []
  | (k, w) :: rest, key => if k = key then rest else (k, w) :: aremove rest key

/-- Insertion-order deduplication, as produced by Array.from(new Set(xs)). -/
def dedupFirst (xs : List Str) : List Str :=
  xs.foldl (fun acc x => if acc.contains x then acc else acc ++ [x]) []

/-- JavaScript Set.add: append the element unless it is already present. -/
def saddStr (s : List Str) (x : Str) : List Str :=
  if s.contains x then s else s ++ [x]

/-- Stable sort by a boolean comparator, modelling Array.prototype.sort with a
localeCompare-based comparator; `le a b` stands for compare(a, b) <= 0. -/
def sortByLe {α : Type} (le : α → α → Bool) (l : List α) : List α :=
  List.insertionSort (fun a b => le a b = true) l

/-- Milliseconds per day, as in the source constant MS_PER_DAY. -/
def msPerDay : ℤ := 1000 * 60 * 60 * 24

/-- Days between 1970-01-01 and the given civil date (proleptic Gregorian),
the arithmetic a JavaScript Date performs for an ISO date-only string. -/
def daysFromCivil (y m d : ℤ) : ℤ :=
  let y' := if m ≤ 2 then y - 1 else y
  let era := Int.fdiv y' 400
  let yoe := y' - era * 400
  let mp := if m > 2 then m - 3 else m + 9
  let doy := Int.fdiv (153 * mp + 2) 5 + d - 1
  let doe := yoe * 365 + Int.fdiv yoe 4 - Int.fdiv yoe 100 + doy
  era * 146097 + doe - 719468

/-- Numeric value of a decimal digit character, if it is one. -/
def digitVal? (c : Char) : Option ℤ :=
  if c.isDigit then some ((c.toNat : ℤ) - 48) else none

/-- Parse a fixed-width ISO yyyy-MM-dd string to the epoch-millisecond
timestamp new Date(s).getTime() would produce; none models an invalid date. -/
def parseIsoDateMs (s : Str) : Option ℤ :=
  match s with
  | [y1, y2, y3, y4, h1, m1, m2, h2, d1, d2] =>
    if h1 = '-' ∧ h2 = '-' then
      match digitVal? y1, digitVal? y2, digitVal? y3, digitVal? y4,
            digitVal? m1, digitVal? m2, digitVal? d1, digitVal? d2 with
      | some a, some b, some c, some d, some e, some f, some g, some h =>
        some (daysFromCivil (a * 1000 + b * 100 + c * 10 + d)
          (e * 10 + f) (g * 10 + h) * msPerDay)
      | _, _, _, _, _, _, _, _ => none
    else none
  | _ => none

/-! Data model, from src/types/invoice.ts.  Numeric fields are Option ℚ where
the code coalesces them with ?? or guards them with typeof checks, so that
absent / non-number runtime values are representable. -/

/-- Derived invoice status (src/types/invoice.ts). -/
inductive Status where
  | Paid
  | Unpaid
  | Overdue
deriving DecidableEq

/-- Invoice, from src/types/invoice.ts. -/
structure Invoice where
  invoiceNumber : Str
  postingDate : Str
  amount : Option ℚ
  amountInclVat : Option ℚ
  dueDate : Str
  status : Status
  invoicePdf : Str
  billingDataExcel : Str

/-- InvoiceTenantEntry, from src/types/invoice.ts. -/
structure Entry where
  productId : Str
  skuId : Str
  description : Str
  nickname : Str
  licensQuantity : Option ℚ
  invoicingType : Option Str
  startDate : Option Str
  endDate : Option Str
  quantity : Option ℚ
  days : Option ℚ
  unitPrice : Option ℚ
  retailUnitPrice : Option ℚ
  amount : Option ℚ
  retailAmount : Option ℚ
  billing : Option Str
  commitment : Option Str
  billingStartDate : Option Str
  billingEndDate : Option Str
  commitmentStartDate : Option Str
  commitmentEndDate : Option Str
deriving DecidableEq

/-- InvoiceSubscriptionBreakdown, from src/types/invoice.ts. -/
structure Subscription where
  id : Str
  description : Str
  nickname : Str
  licensQuantity : Option ℚ
  amount : Option ℚ
  retailAmount : Option ℚ
  billingTypeId : Option Str
  billingTypeDescription : Option Str
  entries : List Entry
deriving DecidableEq

/-! Embedding of src/utils/billingCalculations.ts. -/

/-- BillingMetrics record. -/
structure BillingMetrics where
  totalInvoiced : ℚ
  balanceDue : ℚ
  overdueAmount : ℚ
  currentMonthVolume : ℚ
  paidThisMonth : ℚ
  averageInvoice : ℚ
  openInvoiceCount : ℕ

/-- BillingAmountMode. -/
inductive BillingAmountMode where
  | inclVat
  | exclVat
deriving DecidableEq

/-- getIsoMonth: first 7 characters of an ISO date string. -/
def getIsoMonth (value : Str) : Str := value.take 7

/-- Internal accumulator of calculateBillingMetrics.reduce. -/
structure MetricsAcc where
  totalInvoiced : ℚ
  balanceDue : ℚ
  overdueAmount : ℚ
  currentMonthVolume : ℚ
  paidThisMonth : ℚ
  openInvoiceCount : ℕ
  invoiceAmountSum : ℚ
  invoiceCount : ℕ

/-- Basis-selected amount of one invoice: amountInclVat ?? amount ?? 0 in
inclVat mode, amount ?? amountInclVat ?? 0 otherwise. -/
def basisAmount (amountMode : BillingAmountMode) (inv : Invoice) : ℚ :=
  match amountMode with
  | .inclVat => (inv.amountInclVat.getD (inv.amount.getD 0))
  | .exclVat => (inv.amount.getD (inv.amountInclVat.getD 0))

/-- One step of the calculateBillingMetrics reduce. -/
def metricsStep (amountMode : BillingAmountMode) (currentMonthIso : Str)
    (acc : MetricsAcc) (inv : Invoice) : MetricsAcc :=
  let amount := basisAmount amountMode inv
  let isOpen := inv.status = .Unpaid ∨ inv.status = .Overdue
  let invoiceMonth := getIsoMonth inv.postingDate
  { totalInvoiced := acc.totalInvoiced + amount
    balanceDue := if isOpen then acc.balanceDue + amount else acc.balanceDue
    overdueAmount :=
      if inv.status = .Overdue then acc.overdueAmount + amount
      else acc.overdueAmount
    currentMonthVolume :=
      if invoiceMonth = currentMonthIso then acc.currentMonthVolume + amount
      else acc.currentMonthVolume
    paidThisMonth :=
      if invoiceMonth = currentMonthIso ∧ inv.status = .Paid then
        acc.paidThisMonth + amount
      else acc.paidThisMonth
    openInvoiceCount :=
      if isOpen then acc.openInvoiceCount + 1 else acc.openInvoiceCount
    invoiceAmountSum := acc.invoiceAmountSum + amount
    invoiceCount := acc.invoiceCount + 1 }

/-- calculateBillingMetrics.  The invoices argument may be null/undefined
(`none`) or a non-array (covered by the same `none` case); `currentMonthIso`
stands for the first 7 characters of new Date().toISOString(). -/
def calculateBillingMetrics (invoices : Option (List Invoice))
    (amountMode : BillingAmountMode) (currentMonthIso : Str) : BillingMetrics :=
  let safeInvoices := invoices.getD []
  let aggregate := safeInvoices.foldl (metricsStep amountMode currentMonthIso)
    { totalInvoiced := 0, balanceDue := 0, overdueAmount := 0
      currentMonthVolume := 0, paidThisMonth := 0, openInvoiceCount := 0
      invoiceAmountSum := 0, invoiceCount := 0 }
  { totalInvoiced := aggregate.totalInvoiced
    balanceDue := aggregate.balanceDue
    overdueAmount := aggregate.overdueAmount
    currentMonthVolume := aggregate.currentMonthVolume
    paidThisMonth := aggregate.paidThisMonth
    openInvoiceCount := aggregate.openInvoiceCount
    averageInvoice :=
      if aggregate.invoiceCount > 0 then
        aggregate.invoiceAmountSum / (aggregate.invoiceCount : ℚ)
      else 0 }

/-- AgingBuckets record; the field names spell the bucket labels
"0-30", "31-60", "61-90" and "90+". -/
structure AgingBuckets where
  b0to30 : ℚ
  b31to60 : ℚ
  b61to90 : ℚ
  b90plus : ℚ
deriving DecidableEq

/-- diffInDays: floor((from - new Date(toIso)) / MS_PER_DAY); none models the
NaN produced by an unparseable date. -/
def diffInDays (fromMs : ℤ) (toIso : Str) : Option ℤ :=
  (parseIsoDateMs toIso).map (fun due => Int.fdiv (fromMs - due) msPerDay)

/-- One step of the calculateAgingBuckets reduce.  When the due date does not
parse, every comparison against NaN is false in JavaScript, so the amount
falls into the "90+" bucket.  The amountInclVat field is typed as a required
number in the source, so getD 0 is only for the statically-excluded absent
case. -/
def agingStep (referenceMs : ℤ) (buckets : AgingBuckets) (invoice : Invoice) :
    AgingBuckets :=
  if invoice.status = .Paid then buckets
  else
    let amt := invoice.amountInclVat.getD 0
    match diffInDays referenceMs invoice.dueDate with
    | some daysPastDue =>
      if daysPastDue ≤ 30 then { buckets with b0to30 := buckets.b0to30 + amt }
      else if daysPastDue ≤ 60 then
        { buckets with b31to60 := buckets.b31to60 + amt }
      else if daysPastDue ≤ 90 then
        { buckets with b61to90 := buckets.b61to90 + amt }
      else { buckets with b90plus := buckets.b90plus + amt }
    | none => { buckets with b90plus := buckets.b90plus + amt }

/-- calculateAgingBuckets; referenceMs is the reference Date as epoch ms. -/
def calculateAgingBuckets (invoices : Option (List Invoice))
    (referenceMs : ℤ) : AgingBuckets :=
  (invoices.getD []).foldl (agingStep referenceMs)
    { b0to30 := 0, b31to60 := 0, b61to90 := 0, b90plus := 0 }

/-- Remainder of a match of the anchored pattern \(\s*NCE\s*\)\s* (the /i flag
makes the letters case-insensitive), or none when the string does not start
with the marker. -/
def nceRest? (s : Str) : Option Str :=
  match s with
  | c0 :: rest =>
    if c0 = '(' then
      match rest.dropWhile isWsChar with
      | n :: c :: e :: r2 =>
        if n.toLower = 'n' ∧ c.toLower = 'c' ∧ e.toLower = 'e' then
          match r2.dropWhile isWsChar with
          | cp :: r4 => if cp = ')' then some (r4.dropWhile isWsChar) else none
          | [] => none
        else none
      | _ => none
    else none
  | [] => none

/-- stripNcePrefix from the source: label.replace(/^\(\s*NCE\s*\)\s*/i, "").
Renamed to dropNceMarker. -/
def dropNceMarker (s : Str) : Str := (nceRest? s).getD s

/-- formatProductLabel. -/
def formatProductLabel (label : Str) : Str :=
  let trimmed := trimStr label
  let withoutMarker := trimStr (dropNceMarker trimmed)
  if withoutMarker.length > 0 then withoutMarker else trimmed

/-- normalizeLabel: format, squash internal whitespace, trim, lower-case. -/
def normalizeLabel (label : Str) : Str :=
  lowerStr (trimStr (squashWs (formatProductLabel label)))

/-- identifyVendorFromProduct: fixed substring lexicon, first match wins. -/
def identifyVendorFromProduct (productLabel : Str) : Option Str :=
  let normalized := lowerStr productLabel
  if containsStr normalized (str "exclaimer") then some (str "Exclaimer")
  else if containsStr normalized (str "keepit") then some (str "Keepit")
  else if containsStr normalized (str "adobe") then some (str "Adobe")
  else if containsStr normalized (str "microsoft") then some (str "Microsoft")
  else none

/-- shouldUseRetailAmount: vendors whose lower-cased name contains keepit,
adobe or microsoft. -/
def shouldUseRetailAmount (vendorName : Str) : Bool :=
  let normalized := lowerStr vendorName
  containsStr normalized (str "keepit") ||
    containsStr normalized (str "adobe") ||
    containsStr normalized (str "microsoft")

/-- getAmountForVendor: retail-preferring vendors use retailAmount falling
back to amount; all others use amount falling back to retailAmount; 0 when
neither is a number (`none` models both absent and non-number values). -/
def getAmountForVendor (sub : Subscription) (vendorName : Str) : ℚ :=
  let prefersRetail := shouldUseRetailAmount vendorName
  if prefersRetail then
    match sub.retailAmount with
    | some r => r
    | none =>
      match sub.amount with
      | some a => a
      | none => 0
  else
    match sub.amount with
    | some a => a
    | none =>
      match sub.retailAmount with
      | some r => r
      | none => 0

/-! The Vendor Aggregation Engine (aggregateVendorsFromSubscriptions).
The nested JavaScript Maps become association lists; the per-subscription
mutation becomes a left fold. -/

/-- Detail accumulator / output row: one per distinct
description|billing|commitment combination. -/
structure DetailAcc where
  label : Str
  billing : Option Str
  commitment : Option Str
  licenses : ℚ
  amount : ℚ

/-- Product accumulator inside the vendor map. -/
structure ProductAcc where
  displayName : Str
  licenses : ℚ
  amount : ℚ
  costAmount : ℚ
  billingValues : List Str
  commitmentValues : List Str
  detailsMap : List (Str × DetailAcc)

/-- Vendor accumulator inside the vendor map. -/
structure VendorAcc where
  vendorName : Str
  totalLicenses : ℚ
  totalAmount : ℚ
  productsMap : List (Str × ProductAcc)

/-- Aggregated product in the output. -/
structure AggregatedProduct where
  displayName : Str
  licenses : ℚ
  amount : ℚ
  costAmount : ℚ
  billing : Option Str
  commitment : Option Str
  details : List DetailAcc

/-- Aggregated vendor in the output. -/
structure AggregatedVendor where
  vendorName : Str
  totalLicenses : ℚ
  totalAmount : ℚ
  products : List AggregatedProduct

/-- Resolved vendor name of a subscription:
billingTypeDescription?.trim() || identifyVendorFromProduct(description ||
nickname || "Product") || nickname || description || "Product". -/
def vendorNameOf (sub : Subscription) : Str :=
  (jsOrOpt (sub.billingTypeDescription.map trimStr)
    (jsOrOpt
      (identifyVendorFromProduct
        (jsOr sub.description (jsOr sub.nickname (str "Product"))))
      (jsOrOpt (some sub.nickname)
        (jsOrOpt (some sub.description) (some (str "Product")))))).getD
    (str "Product")

/-- rawProductLabel: (description || nickname || "Line item").trim(). -/
def rawProductLabelOf (sub : Subscription) : Str :=
  trimStr (jsOr sub.description (jsOr sub.nickname (str "Line item")))

/-- productLabel: the NCE-stripped display label. -/
def productLabelOf (sub : Subscription) : Str :=
  formatProductLabel (rawProductLabelOf sub)

/-- productKey: the normalized grouping key. -/
def productKeyOf (sub : Subscription) : Str :=
  normalizeLabel (productLabelOf sub)

/-- licenses contributed by a subscription: sub.licensQuantity ?? 0. -/
def licensesOf (sub : Subscription) : ℚ := sub.licensQuantity.getD 0

/-- effectiveAmount of a subscription, computed against its resolved vendor. -/
def effAmountOf (sub : Subscription) : ℚ :=
  getAmountForVendor sub (vendorNameOf sub)

/-- Fresh product accumulator (the ?? default of productsMap.get). -/
def emptyProduct (displayName : Str) : ProductAcc :=
  { displayName := displayName, licenses := 0, amount := 0, costAmount := 0
    billingValues := [], commitmentValues := [], detailsMap := [] }

/-- Fresh vendor accumulator (the ?? default of vendorMap.get). -/
def emptyVendor (vendorName : Str) : VendorAcc :=
  { vendorName := vendorName, totalLicenses := 0, totalAmount := 0
    productsMap := [] }

/-- detailLabel of an entry: entry.description?.trim() || productLabel. -/
def detailLabelOf (productLabel : Str) (e : Entry) : Str :=
  jsOr (trimStr e.description) productLabel

/-- detailKey: `${detailLabel}|${billing ?? ""}|${commitment ?? ""}`. -/
def detailKeyOf (productLabel : Str) (e : Entry) : Str :=
  detailLabelOf productLabel e ++ '|' :: e.billing.getD [] ++
    '|' :: e.commitment.getD []

/-- licenses of one entry: licensQuantity ?? quantity ?? days ?? 0. -/
def entryLicensesOf (e : Entry) : ℚ :=
  (e.licensQuantity.getD (e.quantity.getD (e.days.getD 0)))

/-- amount of one entry, 0 when not a number. -/
def entryAmountOf (e : Entry) : ℚ := e.amount.getD 0

/-- Per-entry step inside a product: record billing/commitment tags, merge the
entry into the detail bucket, and accumulate subscriptionEntryAmount (the ℚ
component of the pair). -/
def stepEntryDetail (productLabel : Str) (acc : ProductAcc × ℚ) (e : Entry) :
    ProductAcc × ℚ :=
  let p := acc.1
  let p :=
    { p with
      billingValues :=
        match e.billing with
        | some b => if b = [] then p.billingValues else saddStr p.billingValues b
        | none => p.billingValues
      commitmentValues :=
        match e.commitment with
        | some c =>
          if c = [] then p.commitmentValues else saddStr p.commitmentValues c
        | none => p.commitmentValues }
  let detailLabel := detailLabelOf productLabel e
  let detailKey := detailKeyOf productLabel e
  let detailEntry := (alookup p.detailsMap detailKey).getD
    { label := detailLabel
      billing := if (e.billing.getD []) = [] then none else e.billing
      commitment := if (e.commitment.getD []) = [] then none else e.commitment
      licenses := 0, amount := 0 }
  let detailEntry :=
    { detailEntry with
      licenses := detailEntry.licenses + entryLicensesOf e
      amount := detailEntry.amount + entryAmountOf e }
  ({ p with detailsMap := aupsert p.detailsMap detailKey detailEntry },
    acc.2 + entryAmountOf e)

/-- Merge one subscription into its product accumulator: add licenses and the
basis-selected amount, fold the entries, then add the cost contribution
(the entry-amount sum when positive, else the subscription cost amount). -/
def stepProduct (p0 : ProductAcc) (sub : Subscription) : ProductAcc :=
  let p1 := { p0 with
    licenses := p0.licenses + licensesOf sub
    amount := p0.amount + effAmountOf sub }
  let folded := sub.entries.foldl (stepEntryDetail (productLabelOf sub)) (p1, 0)
  let p2 := folded.1
  let subscriptionEntryAmount := folded.2
  let subCostAmount := sub.amount.getD 0
  let costContribution :=
    if subscriptionEntryAmount > 0 then subscriptionEntryAmount
    else subCostAmount
  { p2 with costAmount := p2.costAmount + costContribution }

/-- Merge one subscription into its vendor accumulator. -/
def stepVendorEntry (v0 : VendorAcc) (sub : Subscription) : VendorAcc :=
  let key := productKeyOf sub
  let p0 := (alookup v0.productsMap key).getD (emptyProduct (productLabelOf sub))
  { v0 with
    totalLicenses := v0.totalLicenses + licensesOf sub
    totalAmount := v0.totalAmount + effAmountOf sub
    productsMap := aupsert v0.productsMap key (stepProduct p0 sub) }

/-- Merge one subscription into the vendor map. -/
def stepVendorMap (m : List (Str × VendorAcc)) (sub : Subscription) :
    List (Str × VendorAcc) :=
  let name := vendorNameOf sub
  let v0 := (alookup m name).getD (emptyVendor name)
  aupsert m name (stepVendorEntry v0 sub)

/-- The vendor map built by the forEach loop. -/
def buildVendorMap (subs : List Subscription) : List (Str × VendorAcc) :=
  subs.foldl stepVendorMap []

/-- resolveLabel: none for an empty tag set, the unique trimmed value when all
tags agree, the literal "Mixed" otherwise. -/
def resolveLabel (values : List Str) : Option Str :=
  if values = [] then none
  else
    let normalized := values.map trimStr
    let unique := dedupFirst normalized
    match unique with
    | [u] => some u
    | _ => some (str "Mixed")

/-- Finalize one product: resolve the tag labels and sort the detail rows by
label under the comparator le. -/
def finalizeProduct (le : Str → Str → Bool) (p : ProductAcc) :
    AggregatedProduct :=
  { displayName := p.displayName
    licenses := p.licenses
    amount := p.amount
    costAmount := p.costAmount
    billing := resolveLabel p.billingValues
    commitment := resolveLabel p.commitmentValues
    details := sortByLe (fun a b => le a.label b.label)
      (p.detailsMap.map Prod.snd) }

/-- Finalize one vendor: finalize its products and sort them by display name. -/
def finalizeVendor (le : Str → Str → Bool) (v : VendorAcc) : AggregatedVendor :=
  { vendorName := v.vendorName
    totalLicenses := v.totalLicenses
    totalAmount := v.totalAmount
    products := sortByLe (fun a b => le a.displayName b.displayName)
      ((v.productsMap.map Prod.snd).map (finalizeProduct le)) }

/-- aggregateVendorsFromSubscriptions.  The comparator le models
(a, b) => a.localeCompare(b, "da") <= 0; the subscriptions argument may be
undefined (`none`), which the source coalesces to []. -/
def aggregateVendorsFromSubscriptions (le : Str → Str → Bool)
    (subscriptions : Option (List Subscription)) : List AggregatedVendor :=
  let m := buildVendorMap (subscriptions.getD [])
  sortByLe (fun a b => le a.vendorName b.vendorName)
    ((m.map Prod.snd).map (finalizeVendor le))

/-! Embedding of the response mapper in src/hooks/useInvoiceDetail.ts.
The same mapStatus logic also appears verbatim in src/hooks/useInvoices.ts. -/

/-- mapStatus: Paid when the remaining tax-inclusive balance is exactly 0,
else Overdue when the due date is lexicographically before today (the ISO
slice of the current clock, passed here as a parameter), else Unpaid.
Identical in src/hooks/useInvoiceDetail.ts and src/hooks/useInvoices.ts. -/
def mapStatus (remainingAmountIncludingVAT : ℚ) (dueDate today : Str) :
    Status :=
  if remainingAmountIncludingVAT = 0 then .Paid
  else if lexLtStr dueDate today then .Overdue
  else .Unpaid

/-- TenantEntryApi: the raw entry shape, all fields optional. -/
structure ApiEntry where
  productId : Option Str
  skuId : Option Str
  description : Option Str
  nickname : Option Str
  licensQuantity : Option ℚ
  invoicingType : Option Str
  startDate : Option Str
  endDate : Option Str
  quantity : Option ℚ
  days : Option ℚ
  unitPrice : Option ℚ
  retailUnitPrice : Option ℚ
  amount : Option ℚ
  retailAmount : Option ℚ
  billing : Option Str
  commitment : Option Str
  billingStartDate : Option Str
  billingEndDate : Option Str
  commitmentStartDate : Option Str
  commitmentEndDate : Option Str
deriving DecidableEq

/-- TenantConnectorApi. -/
structure ApiConnector where
  id : Option Str
  description : Option Str
  quantity : Option ℚ
  unitPrice : Option ℚ
  retailUnitPrice : Option ℚ
  amount : Option ℚ
  retailAmount : Option ℚ
deriving DecidableEq

/-- Raw subscription under a tenant (fields the mapper reads). -/
structure ApiSubscription where
  id : Str
  description : Str
  nickname : Str
  licensQuantity : Option ℚ
  amount : Option ℚ
  retailAmount : Option ℚ
  entries : Option (List ApiEntry)
deriving DecidableEq

/-- Raw tenant under billingData (fields the mapper reads). -/
structure ApiTenant where
  id : Str
  name : Str
  domain : Str
  amount : Option ℚ
  retailAmount : Option ℚ
  customerName : Str
  customerVatId : Str
  customerReference : Str
  productId : Option Str
  productDescription : Option Str
  quantity : Option ℚ
  unitPrice : Option ℚ
  retailUnitPrice : Option ℚ
  entries : Option (List ApiEntry)
  connectors : Option (List ApiConnector)
  subscriptions : Option (List ApiSubscription)
deriving DecidableEq

/-- Invoice-line context inherited by every subscription derived from the
line's tenants. -/
structure LineCtx where
  description : Option Str
  billingTypeId : Option Str
  billingTypeDescription : Option Str

/-- Decimal digits of a number used inside template-literal fallback ids. -/
def natStr (n : ℕ) : Str := (Nat.repr n).data

/-- buildEntry: canonicalize a raw entry, defaulting ids, labels, licenses
and amounts. -/
def buildEntry (entry : ApiEntry) (fallbackId fallbackDescription : Str) :
    Entry :=
  { productId := entry.productId.getD fallbackId
    skuId := entry.skuId.getD fallbackId
    description := entry.description.getD fallbackDescription
    nickname := entry.nickname.getD (entry.description.getD fallbackDescription)
    licensQuantity := some (entry.licensQuantity.getD (entry.quantity.getD 0))
    invoicingType := entry.invoicingType
    startDate := entry.startDate
    endDate := entry.endDate
    quantity := entry.quantity
    days := entry.days
    unitPrice := entry.unitPrice
    retailUnitPrice := entry.retailUnitPrice
    amount := some (entry.amount.getD 0)
    retailAmount := some (entry.retailAmount.getD 0)
    billing := entry.billing
    commitment := entry.commitment
    billingStartDate := entry.billingStartDate
    billingEndDate := entry.billingEndDate
    commitmentStartDate := entry.commitmentStartDate
    commitmentEndDate := entry.commitmentEndDate }

/-- mapSubscriptionEntries: canonicalize the nested entries of one raw
subscription, with per-index fallback ids. -/
def mapSubscriptionEntries (subEntries : Option (List ApiEntry))
    (subId subDescription : Str) : List Entry :=
  ((subEntries.getD []).enum).map (fun p =>
    let idx := p.1
    let entry := p.2
    -- the trailing ?? "Line item" of the source fallback chain is
    -- unreachable because subDescription is a required string
    buildEntry entry
      (entry.productId.getD (entry.skuId.getD
        (subId ++ str "-entry-" ++ natStr idx)))
      (entry.description.getD (entry.nickname.getD subDescription)))

/-- sumEntryLicenses over already-canonicalized entries. -/
def sumEntryLicenses (entries : List Entry) : ℚ :=
  entries.foldl (fun acc entry =>
    acc + (entry.licensQuantity.getD (entry.quantity.getD 0))) 0

/-- Strategy 1: map the tenant's explicit subscriptions array. -/
def mappedSubscriptions (line : LineCtx) (subs : List ApiSubscription) :
    List Subscription :=
  subs.map (fun sub =>
    let entries := mapSubscriptionEntries sub.entries sub.id sub.description
    let derivedLicenses := sumEntryLicenses entries
    let fallbackLicenses :=
      if derivedLicenses ≠ 0 then derivedLicenses
      else if entries.length > 0 then (entries.length : ℚ) else 0
    { id := sub.id
      description := sub.description
      nickname := sub.nickname
      licensQuantity := some (sub.licensQuantity.getD fallbackLicenses)
      amount := sub.amount
      retailAmount := sub.retailAmount
      billingTypeId := line.billingTypeId
      billingTypeDescription := line.billingTypeDescription
      entries := entries })

/-- Strategy 2: one synthetic subscription per flat tenant entry. -/
def directEntriesOf (line : LineCtx) (tenant : ApiTenant) :
    List Subscription :=
  ((tenant.entries.getD []).enum).map (fun p =>
    let idx := p.1
    let entry := p.2
    let description := entry.description.getD (entry.nickname.getD
      (tenant.productDescription.getD (line.description.getD
        (line.billingTypeDescription.getD (str "Item")))))
    let fallbackId := entry.productId.getD (entry.skuId.getD
      (tenant.id ++ str "-entry-" ++ natStr idx))
    { id := fallbackId
      description := description
      nickname := entry.nickname.getD description
      licensQuantity := some (entry.licensQuantity.getD (entry.quantity.getD 0))
      amount := some (entry.amount.getD 0)
      retailAmount := some (entry.retailAmount.getD 0)
      billingTypeId := line.billingTypeId
      billingTypeDescription := line.billingTypeDescription
      entries := [buildEntry entry fallbackId description] })

/-- Amount of one connector subscription: the explicit amount, else
quantity × unitPrice when both raw factors are present, else 0. -/
def connectorAmount (tenant : ApiTenant) (connector : ApiConnector) : ℚ :=
  let rawQuantity := connector.quantity.orElse (fun _ => tenant.quantity)
  let rawUnitPrice := connector.unitPrice.orElse (fun _ => tenant.unitPrice)
  connector.amount.getD
    (if rawQuantity.isSome ∧ rawUnitPrice.isSome then
      rawQuantity.getD 0 * rawUnitPrice.getD 0
    else 0)

/-- Retail amount of one connector subscription, same shape with the retail
unit price. -/
def connectorRetailAmount (tenant : ApiTenant) (connector : ApiConnector) :
    ℚ :=
  let rawQuantity := connector.quantity.orElse (fun _ => tenant.quantity)
  let rawRetailUnitPrice :=
    connector.retailUnitPrice.orElse (fun _ => tenant.retailUnitPrice)
  connector.retailAmount.getD
    (if rawQuantity.isSome ∧ rawRetailUnitPrice.isSome then
      rawQuantity.getD 0 * rawRetailUnitPrice.getD 0
    else 0)

/-- Strategy 3: one subscription per connector. -/
def connectorSubscriptionsOf (line : LineCtx) (tenant : ApiTenant) :
    List Subscription :=
  ((tenant.connectors.getD []).enum).map (fun p =>
    let idx := p.1
    let connector := p.2
    let quantity := (connector.quantity.orElse (fun _ => tenant.quantity)).getD 0
    let unitPrice :=
      (connector.unitPrice.orElse (fun _ => tenant.unitPrice)).getD 0
    let retailUnitPrice :=
      (connector.retailUnitPrice.orElse (fun _ => tenant.retailUnitPrice)).getD 0
    let amount := connectorAmount tenant connector
    let retailAmount := connectorRetailAmount tenant connector
    let description := connector.description.getD
      (tenant.productDescription.getD (line.description.getD
        (line.billingTypeDescription.getD (str "Product"))))
    let fallbackId := connector.id.getD (tenant.productId.getD
      (tenant.id ++ str "-connector-" ++ natStr idx))
    let connectorEntry : ApiEntry :=
      { productId := tenant.productId.orElse (fun _ => connector.id)
        skuId := connector.id
        description := some description
        nickname := some description
        licensQuantity := some quantity
        invoicingType := none, startDate := none, endDate := none
        quantity := some quantity
        days := none
        unitPrice := some unitPrice
        retailUnitPrice := some retailUnitPrice
        amount := some amount
        retailAmount := some retailAmount
        billing := none, commitment := none
        billingStartDate := none, billingEndDate := none
        commitmentStartDate := none, commitmentEndDate := none }
    { id := fallbackId
      description := description
      nickname := description
      licensQuantity := some quantity
      amount := some amount
      retailAmount := some retailAmount
      billingTypeId := line.billingTypeId
      billingTypeDescription := line.billingTypeDescription
      entries := [buildEntry connectorEntry fallbackId description] })

/-- Strategy 4: a single subscription synthesized from the tenant's own
aggregate fields. -/
def tenantFallbackSubscription (line : LineCtx) (tenant : ApiTenant) :
    List Subscription :=
  -- the trailing ?? "Item" of the source chain is unreachable because
  -- tenant.name is a required string
  let fallbackDescription := tenant.productDescription.getD
    (line.description.getD (line.billingTypeDescription.getD tenant.name))
  let fallbackId := tenant.productId.getD tenant.id
  [{ id := fallbackId
     description := fallbackDescription
     nickname := fallbackDescription
     licensQuantity := some (tenant.quantity.getD 0)
     amount := some (tenant.amount.getD 0)
     retailAmount := some (tenant.retailAmount.getD 0)
     billingTypeId := line.billingTypeId
     billingTypeDescription := line.billingTypeDescription
     entries := [buildEntry
       { productId := tenant.productId
         skuId := none
         description := some fallbackDescription
         nickname := some fallbackDescription
         licensQuantity := tenant.quantity
         invoicingType := none, startDate := none, endDate := none
         quantity := tenant.quantity
         days := none
         unitPrice := tenant.unitPrice
         retailUnitPrice := tenant.retailUnitPrice
         amount := tenant.amount
         retailAmount := tenant.retailAmount
         billing := none, commitment := none
         billingStartDate := none, billingEndDate := none
         commitmentStartDate := none, commitmentEndDate := none }
       fallbackId fallbackDescription] }]

/-- mapSubscriptions: the ordered fallback chain deriving the subscription
list of one tenant. -/
def mapSubscriptions (line : LineCtx) (tenant : ApiTenant) :
    List Subscription :=
  if (tenant.subscriptions.getD []).length > 0 then
    mappedSubscriptions line (tenant.subscriptions.getD [])
  else
    let directEntries := directEntriesOf line tenant
    if directEntries.length > 0 then directEntries
    else
      let connectorSubscriptions := connectorSubscriptionsOf line tenant
      if connectorSubscriptions.length > 0 then connectorSubscriptions
      else tenantFallbackSubscription line tenant

/-! Embedding of the discount store, src/hooks/useTenantDiscounts.ts.  The
same key derivation, clamping and rounding appear in the persistence service
(server/index.mjs) and in the server-backed hook variant. -/

/-- Per-tenant overrides and the whole store state, as insertion-ordered
association lists (JavaScript plain objects). -/
abbrev TenantProductDiscounts := List (Str × ℚ)

/-- Discount state: tenant id to per-product overrides. -/
abbrev TenantDiscountState := List (Str × TenantProductDiscounts)

/-- clampRate: Math.min(100, Math.max(0, value)). -/
def clampRate (value : ℚ) : ℚ := min 100 (max 0 value)

/-- JavaScript Math.round: round half toward positive infinity. -/
def jsRound (x : ℚ) : ℤ := Int.floor (x + 1 / 2)

/-- The normalized rate stored on write:
Math.round(clampRate(rate) * 100) / 100. -/
def normalizeRate (rate : ℚ) : ℚ := (jsRound (clampRate rate * 100) : ℚ) / 100

/-- makeProductKey in the client hook:
`${vendorName}::${productName}`.toLowerCase().  The ?? fallbacks in the
source only apply to undefined arguments, which the string-typed signature
excludes. -/
def makeProductKey (vendorName productName : Str) : Str :=
  lowerStr (vendorName ++ str "::" ++ productName)

/-- makeProductKey as written in the persistence service (server/index.mjs)
and the server-backed hook, textually the same derivation. -/
def makeProductKeyApi (vendorName productName : Str) : Str :=
  lowerStr (vendorName ++ str "::" ++ productName)

/-- getDiscountRate: undefined without a tenant id, else the stored override
at the product key. -/
def getDiscountRate (discounts : TenantDiscountState)
    (tenantId : Option Str) (vendorName productName : Str) : Option ℚ :=
  match tenantId with
  | none => none
  | some tid =>
    (alookup discounts tid).bind (fun td =>
      alookup td (makeProductKey vendorName productName))

/-- setDiscountRate as a pure state transition: a null (or NaN) rate removes
the override, dropping the tenant bucket when it empties; a numeric rate is
clamped, rounded and upserted. -/
def setDiscountRate (discounts : TenantDiscountState)
    (tenantId : Option Str) (vendorName productName : Str)
    (rate : Option ℚ) : TenantDiscountState :=
  match tenantId with
  | none => discounts
  | some tid =>
    let productKey := makeProductKey vendorName productName
    let tenantDiscounts := (alookup discounts tid).getD []
    match rate with
    | none =>
      if (alookup tenantDiscounts productKey).isNone then discounts
      else
        let restProducts := aremove tenantDiscounts productKey
        if restProducts = [] then aremove discounts tid
        else aupsert discounts tid restProducts
    | some r =>
      aupsert discounts tid
        (aupsert tenantDiscounts productKey (normalizeRate r))

/-! Association-list lemmas. -/

/-- Keys of an association list are pairwise distinct. -/
def keysNodup {α : Type} (m : List (Str × α)) : Prop :=
  (m.map Prod.fst).Nodup

theorem alookup_aupsert {α : Type} (m : List (Str × α)) (k k' : Str) (v : α) :
    alookup (aupsert m k v) k' = if k = k' then some v else alookup m k' := by
  induction m with
  | nil =>
    by_cases h : k = k'
    · rw [if_pos h]
      subst h
      simp [aupsert, alookup]
    · rw [if_neg h]
      simp [aupsert, alookup, h]
  | cons hd tl ih =>
    obtain ⟨a, b⟩ := hd
    by_cases hak : a = k
    · subst hak
      by_cases hkk : a = k'
      · subst hkk
        simp [aupsert, alookup]
      · simp [aupsert, alookup, hkk]
    · have step : aupsert ((a, b) :: tl) k v = (a, b) :: aupsert tl k v := by
        simp [aupsert, hak]
      rw [step]
      by_cases hak' : a = k'
      · subst hak'
        have hkk : k ≠ a := fun hh => hak hh.symm
        simp [alookup, hkk]
      · simp [alookup, hak', ih]

theorem keys_aupsert {α : Type} (m : List (Str × α)) (k : Str) (v : α) :
    (aupsert m k v).map Prod.fst =
      if k ∈ m.map Prod.fst then m.map Prod.fst
      else m.map Prod.fst ++ [k] := by
  induction m with
  | nil => simp [aupsert]
  | cons hd tl ih =>
    obtain ⟨a, b⟩ := hd
    by_cases hak : a = k
    · subst hak
      have step : aupsert ((a, b) :: tl) a v = (a, v) :: tl := by
        simp [aupsert]
      rw [step]
      simp only [List.map_cons]
      rw [if_pos (List.mem_cons_self _ _)]
    · have hka : ¬ k = a := fun hh => hak hh.symm
      have step : aupsert ((a, b) :: tl) k v = (a, b) :: aupsert tl k v := by
        simp [aupsert, hak]
      rw [step]
      by_cases hmem : k ∈ tl.map Prod.fst
      · simp [ih, hmem, hka]
      · simp [ih, hmem, hka]

theorem mem_keys_aupsert {α : Type} (m : List (Str × α)) (k k' : Str) (v : α)
    (hk' : k' ∈ (aupsert m k v).map Prod.fst) :
    k' = k ∨ k' ∈ m.map Prod.fst := by
  rw [keys_aupsert] at hk'
  by_cases hmem : k ∈ m.map Prod.fst
  · rw [if_pos hmem] at hk'
    exact Or.inr hk'
  · rw [if_neg hmem] at hk'
    rcases List.mem_append.mp hk' with h | h
    · exact Or.inr h
    · exact Or.inl (List.mem_singleton.mp h)

theorem alookup_eq_none_of_not_mem {α : Type} (m : List (Str × α)) (k : Str)
    (h : k ∉ m.map Prod.fst) : alookup m k = none := by
  induction m with
  | nil => simp [alookup]
  | cons hd tl ih =>
    obtain ⟨a, b⟩ := hd
    simp only [List.map_cons, List.mem_cons] at h
    push_neg at h
    have hak : a ≠ k := fun hh => h.1 hh.symm
    simp [alookup, hak, ih h.2]

theorem alookup_of_mem_nodup {α : Type} (m : List (Str × α)) (k : Str) (a : α)
    (hnd : keysNodup m) (hmem : (k, a) ∈ m) : alookup m k = some a := by
  induction m with
  | nil => simp at hmem
  | cons hd tl ih =>
    obtain ⟨b, c⟩ := hd
    simp only [keysNodup, List.map_cons, List.nodup_cons] at hnd
    rcases List.mem_cons.mp hmem with heq | htl
    · have h1 : k = b := congrArg Prod.fst heq
      have h2 : a = c := congrArg Prod.snd heq
      subst h1
      subst h2
      simp [alookup]
    · have hk : b ≠ k := by
        intro hbk
        subst hbk
        exact hnd.1 (List.mem_map.mpr ⟨(b, a), htl, rfl⟩)
      simp [alookup, hk, ih hnd.2 htl]

theorem keysNodup_aupsert {α : Type} (m : List (Str × α)) (k : Str) (v : α)
    (hnd : keysNodup m) : keysNodup (aupsert m k v) := by
  induction m with
  | nil => simp [aupsert, keysNodup]
  | cons hd tl ih =>
    obtain ⟨a, b⟩ := hd
    simp only [keysNodup, List.map_cons, List.nodup_cons] at hnd
    by_cases hak : a = k
    · subst hak
      have step : aupsert ((a, b) :: tl) a v = (a, v) :: tl := by simp [aupsert]
      rw [step]
      simp only [keysNodup, List.map_cons, List.nodup_cons]
      exact ⟨hnd.1, hnd.2⟩
    · have step : aupsert ((a, b) :: tl) k v = (a, b) :: aupsert tl k v := by
        simp [aupsert, hak]
      rw [step]
      have htl := ih hnd.2
      simp only [keysNodup, List.map_cons, List.nodup_cons]
      refine ⟨?_, htl⟩
      intro hmem
      rcases mem_keys_aupsert tl k a v hmem with h | h
      · exact hak h
      · exact hnd.1 h

theorem alookup_aremove_ne {α : Type} (m : List (Str × α)) (k k' : Str)
    (h : k ≠ k') : alookup (aremove m k) k' = alookup m k' := by
  induction m with
  | nil => simp [aremove]
  | cons hd tl ih =>
    obtain ⟨a, b⟩ := hd
    by_cases hak : a = k
    · subst hak
      have hk' : a ≠ k' := fun hh => h (hh ▸ rfl)
      simp [aremove, alookup, hk']
    · by_cases hak' : a = k'
      · subst hak'
        simp [aremove, alookup, hak]
      · simp [aremove, alookup, hak, hak', ih]

theorem alookup_aremove_self {α : Type} (m : List (Str × α)) (k : Str)
    (hnd : keysNodup m) : alookup (aremove m k) k = none := by
  induction m with
  | nil => simp [aremove, alookup]
  | cons hd tl ih =>
    obtain ⟨a, b⟩ := hd
    simp only [keysNodup, List.map_cons, List.nodup_cons] at hnd
    by_cases hak : a = k
    · subst hak
      simp only [aremove, if_pos rfl]
      exact alookup_eq_none_of_not_mem tl a hnd.1
    · simp [aremove, alookup, hak, ih hnd.2]

/-- Sum of a numeric projection over the values of an association list. -/
def sumVals {α : Type} (f : α → ℚ) (m : List (Str × α)) : ℚ :=
  (m.map (fun kv => f kv.2)).sum

theorem sumVals_aupsert_none {α : Type} (f : α → ℚ) (m : List (Str × α))
    (k : Str) (v : α) (h : alookup m k = none) :
    sumVals f (aupsert m k v) = sumVals f m + f v := by
  induction m with
  | nil => simp [aupsert, sumVals]
  | cons hd tl ih =>
    obtain ⟨a, b⟩ := hd
    by_cases hak : a = k
    · simp [alookup, hak] at h
    · simp only [alookup, hak, if_false] at h
      simp [aupsert, sumVals, hak, List.sum_cons] at ih ⊢
      rw [ih h]
      ring

theorem sumVals_aupsert_some {α : Type} (f : α → ℚ) (m : List (Str × α))
    (k : Str) (v w : α) (h : alookup m k = some w) :
    sumVals f (aupsert m k v) = sumVals f m - f w + f v := by
  induction m with
  | nil => simp [alookup] at h
  | cons hd tl ih =>
    obtain ⟨a, b⟩ := hd
    by_cases hak : a = k
    · subst hak
      have hb : b = w := by simpa [alookup] using h
      subst hb
      simp [aupsert, sumVals, List.sum_cons]
      ring
    · simp only [alookup, hak, if_false] at h
      simp [aupsert, sumVals, hak, List.sum_cons] at ih ⊢
      rw [ih h]
      ring

/-- find? is the head of the filtered list. -/
theorem find?_eq_head_filter {α : Type} (p : α → Bool) (l : List α) :
    l.find? p = (l.filter p).head? := by
  induction l with
  | nil => simp
  | cons hd tl ih =>
    by_cases h : p hd = true
    · rw [List.find?_cons_of_pos _ h, List.filter_cons_of_pos h]
      simp
    · rw [List.find?_cons_of_neg _ h, List.filter_cons_of_neg h]
      exact ih

/-- sortByLe permutes its input. -/
theorem sortByLe_perm {α : Type} (le : α → α → Bool) (l : List α) :
    (sortByLe le l).Perm l :=
  List.perm_insertionSort _ l

theorem sortByLe_singleton {α : Type} (le : α → α → Bool) (a : α) :
    sortByLe le [a] = [a] := by
  simp [sortByLe, List.insertionSort, List.orderedInsert]

theorem sortByLe_sum {α : Type} (le : α → α → Bool) (f : α → ℚ) (l : List α) :
    ((sortByLe le l).map f).sum = (l.map f).sum :=
  ((sortByLe_perm le l).map f).sum_eq

/-! Field lemmas for the aggregation folds. -/

theorem stepEntryDetail_fields (lbl : Str) (acc : ProductAcc × ℚ) (e : Entry) :
    (stepEntryDetail lbl acc e).1.licenses = acc.1.licenses ∧
      (stepEntryDetail lbl acc e).1.amount = acc.1.amount ∧
      (stepEntryDetail lbl acc e).1.costAmount = acc.1.costAmount ∧
      (stepEntryDetail lbl acc e).1.displayName = acc.1.displayName := by
  simp [stepEntryDetail]

theorem foldl_stepEntryDetail_fields (lbl : Str) (es : List Entry)
    (acc : ProductAcc × ℚ) :
    ((es.foldl (stepEntryDetail lbl) acc).1.licenses = acc.1.licenses) ∧
      ((es.foldl (stepEntryDetail lbl) acc).1.amount = acc.1.amount) ∧
      ((es.foldl (stepEntryDetail lbl) acc).1.costAmount = acc.1.costAmount) ∧
      ((es.foldl (stepEntryDetail lbl) acc).1.displayName =
        acc.1.displayName) := by
  induction es generalizing acc with
  | nil => simp
  | cons e tl ih =>
    have h1 := stepEntryDetail_fields lbl acc e
    have h2 := ih (stepEntryDetail lbl acc e)
    simp only [List.foldl_cons]
    exact ⟨h2.1.trans h1.1, (h2.2.1).trans h1.2.1,
      (h2.2.2.1).trans h1.2.2.1, (h2.2.2.2).trans h1.2.2.2⟩

theorem stepProduct_licenses (p : ProductAcc) (s : Subscription) :
    (stepProduct p s).licenses = p.licenses + licensesOf s := by
  have h := foldl_stepEntryDetail_fields (productLabelOf s) s.entries
    ({ p with licenses := p.licenses + licensesOf s,
              amount := p.amount + effAmountOf s }, 0)
  simp [stepProduct, h.1]

theorem stepProduct_amount (p : ProductAcc) (s : Subscription) :
    (stepProduct p s).amount = p.amount + effAmountOf s := by
  have h := foldl_stepEntryDetail_fields (productLabelOf s) s.entries
    ({ p with licenses := p.licenses + licensesOf s,
              amount := p.amount + effAmountOf s }, 0)
  simp [stepProduct, h.2.1]

theorem stepProduct_displayName (p : ProductAcc) (s : Subscription) :
    (stepProduct p s).displayName = p.displayName := by
  have h := foldl_stepEntryDetail_fields (productLabelOf s) s.entries
    ({ p with licenses := p.licenses + licensesOf s,
              amount := p.amount + effAmountOf s }, 0)
  simp [stepProduct, h.2.2.2]

theorem foldl_stepProduct_licenses (l : List Subscription) (p : ProductAcc) :
    (l.foldl stepProduct p).licenses = p.licenses + (l.map licensesOf).sum := by
  induction l generalizing p with
  | nil => simp
  | cons s tl ih =>
    simp only [List.foldl_cons, List.map_cons, List.sum_cons]
    rw [ih, stepProduct_licenses]
    ring

theorem foldl_stepProduct_amount (l : List Subscription) (p : ProductAcc) :
    (l.foldl stepProduct p).amount = p.amount + (l.map effAmountOf).sum := by
  induction l generalizing p with
  | nil => simp
  | cons s tl ih =>
    simp only [List.foldl_cons, List.map_cons, List.sum_cons]
    rw [ih, stepProduct_amount]
    ring

theorem foldl_stepProduct_displayName (l : List Subscription) (p : ProductAcc) :
    (l.foldl stepProduct p).displayName = p.displayName := by
  induction l generalizing p with
  | nil => simp
  | cons s tl ih =>
    simp only [List.foldl_cons]
    rw [ih, stepProduct_displayName]

theorem stepVendorEntry_vendorName (v0 : VendorAcc) (s : Subscription) :
    (stepVendorEntry v0 s).vendorName = v0.vendorName := by
  simp [stepVendorEntry]

theorem foldl_stepVendorEntry_vendorName (l : List Subscription)
    (e : VendorAcc) : (l.foldl stepVendorEntry e).vendorName = e.vendorName := by
  induction l generalizing e with
  | nil => simp
  | cons s tl ih =>
    simp only [List.foldl_cons]
    rw [ih, stepVendorEntry_vendorName]

theorem foldl_stepVendorEntry_totalAmount (l : List Subscription)
    (e : VendorAcc) :
    (l.foldl stepVendorEntry e).totalAmount =
      e.totalAmount + (l.map effAmountOf).sum := by
  induction l generalizing e with
  | nil => simp
  | cons s tl ih =>
    simp only [List.foldl_cons, List.map_cons, List.sum_cons]
    rw [ih]
    simp only [stepVendorEntry]
    ring

theorem foldl_stepVendorEntry_totalLicenses (l : List Subscription)
    (e : VendorAcc) :
    (l.foldl stepVendorEntry e).totalLicenses =
      e.totalLicenses + (l.map licensesOf).sum := by
  induction l generalizing e with
  | nil => simp
  | cons s tl ih =>
    simp only [List.foldl_cons, List.map_cons, List.sum_cons]
    rw [ih]
    simp only [stepVendorEntry]
    ring

/-! Characterization of the nested grouping folds. -/

theorem mem_aupsert_elim {α : Type} (m : List (Str × α)) (key : Str) (v : α)
    (k : Str) (p : α) (hmem : (k, p) ∈ aupsert m key v) :
    (k = key ∧ p = v) ∨ (k, p) ∈ m := by
  induction m with
  | nil =>
    simp [aupsert] at hmem
    exact Or.inl hmem
  | cons hd tl ih =>
    obtain ⟨a, b⟩ := hd
    by_cases hak : a = key
    · subst hak
      have step : aupsert ((a, b) :: tl) a v = (a, v) :: tl := by simp [aupsert]
      rw [step] at hmem
      rcases List.mem_cons.mp hmem with h | h
      · exact Or.inl ⟨congrArg Prod.fst h, congrArg Prod.snd h⟩
      · exact Or.inr (List.mem_cons.mpr (Or.inr h))
    · have step : aupsert ((a, b) :: tl) key v = (a, b) :: aupsert tl key v := by
        simp [aupsert, hak]
      rw [step] at hmem
      rcases List.mem_cons.mp hmem with h | h
      · exact Or.inr (List.mem_cons.mpr (Or.inl h))
      · rcases ih h with h2 | h2
        · exact Or.inl h2
        · exact Or.inr (List.mem_cons.mpr (Or.inr h2))

theorem alookup_productsMap_foldl (l : List Subscription) (e : VendorAcc)
    (k : Str) :
    alookup (l.foldl stepVendorEntry e).productsMap k =
      match alookup e.productsMap k with
      | some p =>
        some ((l.filter (fun s => decide (productKeyOf s = k))).foldl
          stepProduct p)
      | none =>
        match l.filter (fun s => decide (productKeyOf s = k)) with
        | [] => none
        | s0 :: tl =>
          some ((s0 :: tl).foldl stepProduct (emptyProduct (productLabelOf s0))) := by
  induction l generalizing e with
  | nil =>
    cases h : alookup e.productsMap k <;> simp [h]
  | cons s rest ih =>
    have hmap : (stepVendorEntry e s).productsMap =
        aupsert e.productsMap (productKeyOf s)
          (stepProduct ((alookup e.productsMap (productKeyOf s)).getD
            (emptyProduct (productLabelOf s))) s) := by
      simp [stepVendorEntry]
    by_cases hsk : productKeyOf s = k
    · have hfil : (s :: rest).filter (fun s => decide (productKeyOf s = k)) =
          s :: rest.filter (fun s => decide (productKeyOf s = k)) := by
        simp [List.filter_cons, hsk]
      rw [List.foldl_cons, ih, hmap, alookup_aupsert, if_pos hsk, hfil]
      subst hsk
      cases h : alookup e.productsMap (productKeyOf s) with
      | some p => simp [h]
      | none => simp [h]
    · have hfil : (s :: rest).filter (fun s => decide (productKeyOf s = k)) =
          rest.filter (fun s => decide (productKeyOf s = k)) := by
        simp [List.filter_cons, hsk]
      rw [List.foldl_cons, ih, hmap, alookup_aupsert, if_neg hsk, hfil]

theorem sumVals_productsMap_foldl_amount (l : List Subscription)
    (e : VendorAcc) :
    sumVals (fun p => p.amount) (l.foldl stepVendorEntry e).productsMap =
      sumVals (fun p => p.amount) e.productsMap + (l.map effAmountOf).sum := by
  induction l generalizing e with
  | nil => simp
  | cons s rest ih =>
    simp only [List.foldl_cons, List.map_cons, List.sum_cons]
    rw [ih]
    have hmap : (stepVendorEntry e s).productsMap =
        aupsert e.productsMap (productKeyOf s)
          (stepProduct ((alookup e.productsMap (productKeyOf s)).getD
            (emptyProduct (productLabelOf s))) s) := by
      simp [stepVendorEntry]
    rw [hmap]
    cases h : alookup e.productsMap (productKeyOf s) with
    | some p =>
      rw [sumVals_aupsert_some _ _ _ _ p h]
      simp only [h, Option.getD_some]
      rw [stepProduct_amount]
      ring
    | none =>
      rw [sumVals_aupsert_none _ _ _ _ h]
      simp only [h, Option.getD_none]
      rw [stepProduct_amount]
      simp [emptyProduct]
      ring

theorem sumVals_productsMap_foldl_licenses (l : List Subscription)
    (e : VendorAcc) :
    sumVals (fun p => p.licenses) (l.foldl stepVendorEntry e).productsMap =
      sumVals (fun p => p.licenses) e.productsMap + (l.map licensesOf).sum := by
  induction l generalizing e with
  | nil => simp
  | cons s rest ih =>
    simp only [List.foldl_cons, List.map_cons, List.sum_cons]
    rw [ih]
    have hmap : (stepVendorEntry e s).productsMap =
        aupsert e.productsMap (productKeyOf s)
          (stepProduct ((alookup e.productsMap (productKeyOf s)).getD
            (emptyProduct (productLabelOf s))) s) := by
      simp [stepVendorEntry]
    rw [hmap]
    cases h : alookup e.productsMap (productKeyOf s) with
    | some p =>
      rw [sumVals_aupsert_some _ _ _ _ p h]
      simp only [h, Option.getD_some]
      rw [stepProduct_licenses]
      ring
    | none =>
      rw [sumVals_aupsert_none _ _ _ _ h]
      simp only [h, Option.getD_none]
      rw [stepProduct_licenses]
      simp [emptyProduct]
      ring

theorem keysNodup_productsMap_foldl (l : List Subscription) (e : VendorAcc)
    (h : keysNodup e.productsMap) :
    keysNodup (l.foldl stepVendorEntry e).productsMap := by
  induction l generalizing e with
  | nil => exact h
  | cons s rest ih =>
    simp only [List.foldl_cons]
    refine ih _ ?_
    have hmap : (stepVendorEntry e s).productsMap =
        aupsert e.productsMap (productKeyOf s)
          (stepProduct ((alookup e.productsMap (productKeyOf s)).getD
            (emptyProduct (productLabelOf s))) s) := by
      simp [stepVendorEntry]
    rw [hmap]
    exact keysNodup_aupsert _ _ _ h

theorem mem_of_alookup_some {α : Type} (m : List (Str × α)) (k : Str) (q : α)
    (h : alookup m k = some q) : (k, q) ∈ m := by
  induction m with
  | nil => simp [alookup] at h
  | cons hd tl ih =>
    obtain ⟨a, b⟩ := hd
    by_cases hak : a = k
    · subst hak
      have hb : b = q := by simpa [alookup] using h
      subst hb
      exact List.mem_cons_self _ _
    · have h2 : alookup tl k = some q := by simpa [alookup, hak] using h
      exact List.mem_cons.mpr (Or.inr (ih h2))

theorem productsMap_key_displayName (l : List Subscription) (e : VendorAcc)
    (hinv : ∀ k p, (k, p) ∈ e.productsMap → k = normalizeLabel p.displayName) :
    ∀ k p, (k, p) ∈ (l.foldl stepVendorEntry e).productsMap →
      k = normalizeLabel p.displayName := by
  induction l generalizing e with
  | nil => exact hinv
  | cons s rest ih =>
    simp only [List.foldl_cons]
    refine ih _ ?_
    intro k p hmem
    have hmap : (stepVendorEntry e s).productsMap =
        aupsert e.productsMap (productKeyOf s)
          (stepProduct ((alookup e.productsMap (productKeyOf s)).getD
            (emptyProduct (productLabelOf s))) s) := by
      simp [stepVendorEntry]
    rw [hmap] at hmem
    rcases mem_aupsert_elim _ _ _ _ _ hmem with ⟨hk, hp⟩ | hmem2
    · rw [hk, hp, stepProduct_displayName]
      cases h : alookup e.productsMap (productKeyOf s) with
      | some q =>
        have hq : productKeyOf s = normalizeLabel q.displayName :=
          hinv _ _ (mem_of_alookup_some _ _ _ h)
        simpa using hq
      | none => rfl
    · exact hinv _ _ hmem2

theorem alookup_foldl_stepVendorMap (subs : List Subscription)
    (m : List (Str × VendorAcc)) (v : Str) :
    alookup (subs.foldl stepVendorMap m) v =
      match alookup m v with
      | some e =>
        some ((subs.filter (fun s => decide (vendorNameOf s = v))).foldl
          stepVendorEntry e)
      | none =>
        if (subs.filter (fun s => decide (vendorNameOf s = v))) = [] then none
        else
          some ((subs.filter (fun s => decide (vendorNameOf s = v))).foldl
            stepVendorEntry (emptyVendor v)) := by
  induction subs generalizing m with
  | nil =>
    cases h : alookup m v <;> simp [h]
  | cons s rest ih =>
    have hstep : stepVendorMap m s =
        aupsert m (vendorNameOf s)
          (stepVendorEntry ((alookup m (vendorNameOf s)).getD
            (emptyVendor (vendorNameOf s))) s) := by
      simp [stepVendorMap]
    by_cases hsv : vendorNameOf s = v
    · have hfil : (s :: rest).filter (fun s => decide (vendorNameOf s = v)) =
          s :: rest.filter (fun s => decide (vendorNameOf s = v)) := by
        simp [List.filter_cons, hsv]
      rw [List.foldl_cons, ih, hstep, alookup_aupsert, if_pos hsv, hfil]
      subst hsv
      cases h : alookup m (vendorNameOf s) with
      | some e => simp [h]
      | none => simp [h]
    · have hfil : (s :: rest).filter (fun s => decide (vendorNameOf s = v)) =
          rest.filter (fun s => decide (vendorNameOf s = v)) := by
        simp [List.filter_cons, hsv]
      rw [List.foldl_cons, ih, hstep, alookup_aupsert, if_neg hsv, hfil]

theorem alookup_buildVendorMap (subs : List Subscription) (v : Str) :
    alookup (buildVendorMap subs) v =
      if (subs.filter (fun s => decide (vendorNameOf s = v))) = [] then none
      else
        some ((subs.filter (fun s => decide (vendorNameOf s = v))).foldl
          stepVendorEntry (emptyVendor v)) := by
  rw [buildVendorMap, alookup_foldl_stepVendorMap]
  simp [alookup]

theorem keysNodup_buildVendorMap (subs : List Subscription) :
    keysNodup (buildVendorMap subs) := by
  rw [buildVendorMap]
  have : ∀ m : List (Str × VendorAcc), keysNodup m →
      keysNodup (subs.foldl stepVendorMap m) := by
    induction subs with
    | nil => exact fun m h => h
    | cons s rest ih =>
      intro m h
      simp only [List.foldl_cons]
      refine ih _ ?_
      have hstep : stepVendorMap m s =
          aupsert m (vendorNameOf s)
            (stepVendorEntry ((alookup m (vendorNameOf s)).getD
              (emptyVendor (vendorNameOf s))) s) := by
        simp [stepVendorMap]
      rw [hstep]
      exact keysNodup_aupsert _ _ _ h
  exact this [] (by simp [keysNodup])

theorem lookup_of_mem_buildVendorMap (subs : List Subscription) (k : Str)
    (e : VendorAcc) (hmem : (k, e) ∈ buildVendorMap subs) :
    alookup (buildVendorMap subs) k = some e :=
  alookup_of_mem_nodup _ _ _ (keysNodup_buildVendorMap subs) hmem

theorem mem_buildVendorMap_elim (subs : List Subscription) (k : Str)
    (e : VendorAcc) (hmem : (k, e) ∈ buildVendorMap subs) :
    (subs.filter (fun s => decide (vendorNameOf s = k))) ≠ [] ∧
      e = (subs.filter (fun s => decide (vendorNameOf s = k))).foldl
        stepVendorEntry (emptyVendor k) := by
  have h := lookup_of_mem_buildVendorMap subs k e hmem
  rw [alookup_buildVendorMap] at h
  by_cases hfil : (subs.filter (fun s => decide (vendorNameOf s = k))) = []
  · rw [if_pos hfil] at h
    exact absurd h (by simp)
  · rw [if_neg hfil] at h
    exact ⟨hfil, (Option.some.inj h).symm⟩

/-! Observations of the aggregated output. -/

/-- The vendor totals (licenses, amount) reported for a given vendor name. -/
def vendorStats (vendors : List AggregatedVendor) (vname : Str) :
    Option (ℚ × ℚ) :=
  (vendors.find? (fun v => decide (v.vendorName = vname))).map
    (fun v => (v.totalLicenses, v.totalAmount))

/-- The product totals (licenses, amount) reported for a given vendor name
and product grouping key (the normalized display label). -/
def productStats (vendors : List AggregatedVendor) (vname key : Str) :
    Option (ℚ × ℚ) :=
  (vendors.find? (fun v => decide (v.vendorName = vname))).bind (fun v =>
    (v.products.find? (fun p => decide (normalizeLabel p.displayName = key))).map
      (fun p => (p.licenses, p.amount)))

theorem filter_map_vals_eq {α β : Type} (m : List (Str × α))
    (g : α → β) (p : β → Bool) (key : Str) (hnd : keysNodup m)
    (hp : ∀ k a, (k, a) ∈ m → (p (g a) = true ↔ k = key)) :
    ((m.map (fun kv => g kv.2)).filter p) =
      ((alookup m key).map g).toList := by
  induction m with
  | nil => simp [alookup]
  | cons hd tl ih =>
    obtain ⟨k0, a0⟩ := hd
    simp only [keysNodup, List.map_cons, List.nodup_cons] at hnd
    by_cases hpk : p (g a0) = true
    · have hk0 : k0 = key := (hp k0 a0 (List.mem_cons_self _ _)).mp hpk
      subst hk0
      have htl : (tl.map (fun kv => g kv.2)).filter p = [] := by
        rw [List.filter_eq_nil_iff]
        intro x hx
        obtain ⟨kv, hkv, hgx⟩ := List.mem_map.mp hx
        intro hpx
        have hk : kv.1 = k0 :=
          (hp kv.1 kv.2 (by exact List.mem_cons.mpr (Or.inr hkv))).mp
            (hgx ▸ hpx)
        exact hnd.1 (hk ▸ List.mem_map.mpr ⟨kv, hkv, rfl⟩)
      simp [List.filter_cons, hpk, htl, alookup]
    · have hk0 : k0 ≠ key := fun hh =>
        hpk ((hp k0 a0 (List.mem_cons_self _ _)).mpr hh)
      have hrec := ih hnd.2 (fun k a hmem =>
        hp k a (List.mem_cons.mpr (Or.inr hmem)))
      simp only [List.map_cons, List.filter_cons]
      rw [if_neg hpk]
      have hlk : alookup ((k0, a0) :: tl) key = alookup tl key := by
        simp [alookup, hk0]
      rw [hlk]
      exact hrec

theorem vendorName_of_mem_buildVendorMap (subs : List Subscription) (k : Str)
    (e : VendorAcc) (hmem : (k, e) ∈ buildVendorMap subs) :
    e.vendorName = k := by
  obtain ⟨hne, he⟩ := mem_buildVendorMap_elim subs k e hmem
  rw [he, foldl_stepVendorEntry_vendorName]
  rfl

theorem productsMap_props_of_mem (subs : List Subscription) (k : Str)
    (e : VendorAcc) (hmem : (k, e) ∈ buildVendorMap subs) :
    keysNodup e.productsMap ∧
      ∀ k' p, (k', p) ∈ e.productsMap → k' = normalizeLabel p.displayName := by
  obtain ⟨hne, he⟩ := mem_buildVendorMap_elim subs k e hmem
  constructor
  · rw [he]
    exact keysNodup_productsMap_foldl _ _ (by simp [emptyVendor, keysNodup])
  · rw [he]
    exact productsMap_key_displayName _ _ (by simp [emptyVendor])

theorem find?_vendor_aggregate (le : Str → Str → Bool)
    (subs : List Subscription) (vname : Str) :
    (aggregateVendorsFromSubscriptions le (some subs)).find?
        (fun v => decide (v.vendorName = vname)) =
      (alookup (buildVendorMap subs) vname).map (finalizeVendor le) := by
  rw [find?_eq_head_filter]
  have hperm : ((aggregateVendorsFromSubscriptions le (some subs)).filter
      (fun v => decide (v.vendorName = vname))).Perm
      ((((buildVendorMap subs).map Prod.snd).map (finalizeVendor le)).filter
        (fun v => decide (v.vendorName = vname))) := by
    exact (sortByLe_perm _ _).filter _
  have hfil : ((((buildVendorMap subs).map Prod.snd).map
      (finalizeVendor le)).filter (fun v => decide (v.vendorName = vname))) =
      ((alookup (buildVendorMap subs) vname).map (finalizeVendor le)).toList := by
    rw [List.map_map]
    exact filter_map_vals_eq (buildVendorMap subs) _ _ vname
      (keysNodup_buildVendorMap subs)
      (fun k a hmem => by
        have hname : (finalizeVendor le a).vendorName = k :=
          vendorName_of_mem_buildVendorMap subs k a hmem
        simp [hname])
  rw [hfil] at hperm
  cases h : alookup (buildVendorMap subs) vname with
  | none =>
    rw [h] at hperm
    simp only [Option.map_none', Option.toList_none] at hperm
    simp [List.Perm.eq_nil hperm]
  | some a =>
    rw [h] at hperm
    simp only [Option.map_some', Option.toList_some] at hperm
    rw [List.perm_singleton.mp hperm]
    rfl

theorem find?_product_finalize (le : Str → Str → Bool) (acc : VendorAcc)
    (key : Str) (hnd : keysNodup acc.productsMap)
    (hinv : ∀ k p, (k, p) ∈ acc.productsMap →
      k = normalizeLabel p.displayName) :
    ((finalizeVendor le acc).products.find?
        (fun p => decide (normalizeLabel p.displayName = key))) =
      (alookup acc.productsMap key).map (finalizeProduct le) := by
  rw [find?_eq_head_filter]
  have hperm : (((finalizeVendor le acc).products).filter
      (fun p => decide (normalizeLabel p.displayName = key))).Perm
      (((acc.productsMap.map Prod.snd).map (finalizeProduct le)).filter
        (fun p => decide (normalizeLabel p.displayName = key))) := by
    exact (sortByLe_perm _ _).filter _
  have hfil : (((acc.productsMap.map Prod.snd).map (finalizeProduct le)).filter
      (fun p => decide (normalizeLabel p.displayName = key))) =
      ((alookup acc.productsMap key).map (finalizeProduct le)).toList := by
    rw [List.map_map]
    exact filter_map_vals_eq acc.productsMap _ _ key hnd
      (fun k a hmem => by
        have hname : (finalizeProduct le a).displayName = a.displayName := rfl
        have hk := hinv k a hmem
        simp [hname, ← hk])
  rw [hfil] at hperm
  cases h : alookup acc.productsMap key with
  | none =>
    rw [h] at hperm
    simp only [Option.map_none', Option.toList_none] at hperm
    simp [List.Perm.eq_nil hperm]
  | some a =>
    rw [h] at hperm
    simp only [Option.map_some', Option.toList_some] at hperm
    rw [List.perm_singleton.mp hperm]
    rfl

theorem vendorStats_eq (le : Str → Str → Bool) (subs : List Subscription)
    (vname : Str) :
    vendorStats (aggregateVendorsFromSubscriptions le (some subs)) vname =
      (alookup (buildVendorMap subs) vname).map
        (fun acc => (acc.totalLicenses, acc.totalAmount)) := by
  rw [vendorStats, find?_vendor_aggregate]
  cases h : alookup (buildVendorMap subs) vname <;> simp [finalizeVendor]

theorem productStats_eq (le : Str → Str → Bool) (subs : List Subscription)
    (vname key : Str) :
    productStats (aggregateVendorsFromSubscriptions le (some subs)) vname key =
      (alookup (buildVendorMap subs) vname).bind (fun acc =>
        (alookup acc.productsMap key).map
          (fun p => (p.licenses, p.amount))) := by
  rw [productStats, find?_vendor_aggregate]
  cases h : alookup (buildVendorMap subs) vname with
  | none => simp
  | some acc =>
    have hmem := mem_of_alookup_some _ _ _ h
    obtain ⟨hnd, hinv⟩ := productsMap_props_of_mem subs vname acc hmem
    simp only [Option.map_some', Option.some_bind]
    rw [find?_product_finalize le acc key hnd hinv]
    cases h2 : alookup acc.productsMap key <;> simp [finalizeProduct]

/-! Character-level lemmas: the ASCII case mapping preserves whitespace,
is idempotent, and fixes the non-letter marker characters.  These support
the comparison of the discount-key and grouping-key normalizations. -/

theorem toNat_charOfNat (n : ℕ) (h : n.isValidChar) :
    (Char.ofNat n).toNat = n := by
  simp [Char.ofNat, h, Char.ofNatAux, Char.toNat, UInt32.toNat,
    BitVec.toNat_ofNatLt]

theorem isWhitespace_eq_false_of_gt (d : Char) (hd : 64 < d.toNat) :
    d.isWhitespace = false := by
  unfold Char.isWhitespace
  simp only [Bool.or_eq_false_iff, decide_eq_false_iff_not]
  have e1 : (' ' : Char).toNat = 32 := rfl
  have e2 : ('\t' : Char).toNat = 9 := rfl
  have e3 : ('\r' : Char).toNat = 13 := rfl
  have e4 : ('\n' : Char).toNat = 10 := rfl
  refine ⟨⟨⟨fun hh => ?_, fun hh => ?_⟩, fun hh => ?_⟩, fun hh => ?_⟩ <;>
    · have h2 := congrArg Char.toNat hh
      omega

theorem isWsChar_toLower (c : Char) : isWsChar c.toLower = isWsChar c := by
  show (c.toLower).isWhitespace = c.isWhitespace
  unfold Char.toLower
  by_cases h : c.toNat ≥ 65 ∧ c.toNat ≤ 90
  · rw [if_pos h]
    have hv : (c.toNat + 32).isValidChar := Or.inl (by omega)
    have ht := toNat_charOfNat _ hv
    rw [isWhitespace_eq_false_of_gt _ (by omega),
      isWhitespace_eq_false_of_gt c (by omega)]
  · rw [if_neg h]

theorem toLower_toLower (c : Char) : (c.toLower).toLower = c.toLower := by
  unfold Char.toLower
  by_cases h : c.toNat ≥ 65 ∧ c.toNat ≤ 90
  · rw [if_pos h]
    have hv : (c.toNat + 32).isValidChar := Or.inl (by omega)
    rw [toNat_charOfNat _ hv]
    rw [if_neg (by omega)]
  · rw [if_neg h, if_neg h]

theorem toLower_eq_low (c t : Char) (ht : t.toNat < 65) :
    (c.toLower = t) ↔ (c = t) := by
  constructor
  · intro h
    unfold Char.toLower at h
    by_cases hr : c.toNat ≥ 65 ∧ c.toNat ≤ 90
    · rw [if_pos hr] at h
      have h2 := congrArg Char.toNat h
      have hv : (c.toNat + 32).isValidChar := Or.inl (by omega)
      rw [toNat_charOfNat _ hv] at h2
      omega
    · rwa [if_neg hr] at h
  · intro h
    subst h
    unfold Char.toLower
    rw [if_neg (by omega)]

theorem isWsChar_comp_toLower : isWsChar ∘ Char.toLower = isWsChar :=
  funext (fun c => isWsChar_toLower c)

theorem dropWhile_ws_lower (l : Str) :
    List.dropWhile isWsChar (lowerStr l) =
      lowerStr (List.dropWhile isWsChar l) := by
  simp [lowerStr, List.dropWhile_map, isWsChar_comp_toLower]

theorem reverse_lowerStr (l : Str) : (lowerStr l).reverse = lowerStr l.reverse := by
  simp [lowerStr]

theorem lowerStr_trimStr (s : Str) :
    lowerStr (trimStr s) = trimStr (lowerStr s) := by
  rw [trimStr, trimStr, dropWhile_ws_lower, reverse_lowerStr,
    dropWhile_ws_lower, reverse_lowerStr]

theorem toLower_space : Char.toLower ' ' = ' ' := rfl

theorem lowerStr_squashWsAux (b : Bool) (s : Str) :
    lowerStr (squashWsAux b s) = squashWsAux b (lowerStr s) := by
  induction s generalizing b with
  | nil => rfl
  | cons c rest ih =>
    show lowerStr (squashWsAux b (c :: rest)) =
      squashWsAux b (Char.toLower c :: lowerStr rest)
    rw [squashWsAux, squashWsAux, isWsChar_toLower]
    by_cases hws : isWsChar c = true
    · rw [if_pos hws, if_pos hws]
      by_cases hb : b = true
      · rw [if_pos hb, if_pos hb, ih]
      · rw [if_neg hb, if_neg hb]
        show Char.toLower ' ' :: lowerStr (squashWsAux true rest) = _
        rw [toLower_space, ih]
    · rw [if_neg hws, if_neg hws]
      show Char.toLower c :: lowerStr (squashWsAux false rest) = _
      rw [ih]

theorem lowerStr_squashWs (s : Str) :
    lowerStr (squashWs s) = squashWs (lowerStr s) :=
  lowerStr_squashWsAux false s

theorem nceRest?_lower (s : Str) :
    nceRest? (lowerStr s) = (nceRest? s).map lowerStr := by
  cases s with
  | nil => rfl
  | cons c0 rest =>
    show nceRest? (Char.toLower c0 :: lowerStr rest) = _
    rw [nceRest?, nceRest?]
    by_cases hc0 : c0 = '('
    · rw [if_pos ((toLower_eq_low c0 '(' (by decide)).mpr hc0), if_pos hc0,
        dropWhile_ws_lower]
      cases h1 : List.dropWhile isWsChar rest with
      | nil => rfl
      | cons n r1 =>
        cases r1 with
        | nil => rfl
        | cons c r2 =>
          cases r2 with
          | nil => rfl
          | cons e r3 =>
            simp only [lowerStr, List.map_cons]
            rw [toLower_toLower n, toLower_toLower c, toLower_toLower e]
            by_cases hl : n.toLower = 'n' ∧ c.toLower = 'c' ∧ e.toLower = 'e'
            · rw [if_pos hl, if_pos hl]
              rw [show List.dropWhile isWsChar (List.map Char.toLower r3) =
                lowerStr (List.dropWhile isWsChar r3) from
                  dropWhile_ws_lower r3]
              cases h2 : List.dropWhile isWsChar r3 with
              | nil => rfl
              | cons cp r4 =>
                simp only [lowerStr, List.map_cons]
                by_cases hcp : cp = ')'
                · rw [if_pos ((toLower_eq_low cp ')' (by decide)).mpr hcp),
                    if_pos hcp]
                  rw [show List.dropWhile isWsChar (List.map Char.toLower r4) =
                    lowerStr (List.dropWhile isWsChar r4) from
                      dropWhile_ws_lower r4]
                  rfl
                · rw [if_neg (fun hh =>
                      hcp ((toLower_eq_low cp ')' (by decide)).mp hh)),
                    if_neg hcp]
                  rfl
            · rw [if_neg hl, if_neg hl]
              rfl
    · rw [if_neg (fun hh => hc0 ((toLower_eq_low c0 '(' (by decide)).mp hh)),
        if_neg hc0]
      rfl

theorem dropNceMarker_lower (s : Str) :
    dropNceMarker (lowerStr s) = lowerStr (dropNceMarker s) := by
  rw [dropNceMarker, dropNceMarker, nceRest?_lower]
  cases h : nceRest? s <;> simp

theorem length_lowerStr (s : Str) : (lowerStr s).length = s.length := by
  simp [lowerStr]

theorem formatProductLabel_lower (s : Str) :
    formatProductLabel (lowerStr s) = lowerStr (formatProductLabel s) := by
  simp only [formatProductLabel]
  rw [← lowerStr_trimStr, dropNceMarker_lower, ← lowerStr_trimStr]
  rw [length_lowerStr]
  by_cases h : (trimStr (dropNceMarker (trimStr s))).length > 0
  · rw [if_pos h, if_pos h]
  · rw [if_neg h, if_neg h]

theorem normalizeLabel_eq_of_lower_eq (p1 p2 : Str)
    (h : lowerStr p1 = lowerStr p2) : normalizeLabel p1 = normalizeLabel p2 := by
  have key : ∀ p : Str, normalizeLabel p =
      trimStr (squashWs (formatProductLabel (lowerStr p))) := by
    intro p
    rw [normalizeLabel, lowerStr_trimStr, lowerStr_squashWs,
      formatProductLabel_lower]
  rw [key p1, key p2, h]

/-! Helper lemmas for small concrete aggregations. -/

theorem aggregate_singleton (le : Str → Str → Bool) (s : Subscription) :
    aggregateVendorsFromSubscriptions le (some [s]) =
      [finalizeVendor le (stepVendorEntry (emptyVendor (vendorNameOf s)) s)] := by
  simp [aggregateVendorsFromSubscriptions, buildVendorMap, stepVendorMap,
    alookup, aupsert, sortByLe_singleton]

theorem products_stepVendorEntry_empty (le : Str → Str → Bool) (n : Str)
    (s : Subscription) :
    (finalizeVendor le (stepVendorEntry (emptyVendor n) s)).products =
      [finalizeProduct le
        (stepProduct (emptyProduct (productLabelOf s)) s)] := by
  simp [finalizeVendor, stepVendorEntry, emptyVendor, alookup, aupsert,
    sortByLe_singleton]

theorem buildVendorMap_pair (s1 s2 : Subscription)
    (hv : vendorNameOf s2 = vendorNameOf s1) :
    buildVendorMap [s1, s2] =
      [(vendorNameOf s1,
        stepVendorEntry (stepVendorEntry (emptyVendor (vendorNameOf s1)) s1)
          s2)] := by
  simp [buildVendorMap, stepVendorMap, alookup, aupsert, hv]

theorem aggregate_pair (le : Str → Str → Bool) (s1 s2 : Subscription)
    (hv : vendorNameOf s2 = vendorNameOf s1) :
    aggregateVendorsFromSubscriptions le (some [s1, s2]) =
      [finalizeVendor le
        (stepVendorEntry (stepVendorEntry (emptyVendor (vendorNameOf s1)) s1)
          s2)] := by
  simp [aggregateVendorsFromSubscriptions, buildVendorMap_pair s1 s2 hv,
    sortByLe_singleton]

theorem products_pair (le : Str → Str → Bool) (n : Str) (s1 s2 : Subscription)
    (hk : productKeyOf s2 = productKeyOf s1) :
    (finalizeVendor le
        (stepVendorEntry (stepVendorEntry (emptyVendor n) s1) s2)).products =
      [finalizeProduct le
        (stepProduct (stepProduct (emptyProduct (productLabelOf s1)) s1)
          s2)] := by
  simp [finalizeVendor, stepVendorEntry, emptyVendor, alookup, aupsert, hk,
    sortByLe_singleton]

/-- Any comparator, standing in for localeCompare in concrete instances. -/
def leAny : Str → Str → Bool := fun _ _ => true

/-- The Keepit subscription of the C1 example: cost 50, retail 120. -/
def keepitSubExample : Subscription :=
  { id := str "keepit-1", description := str "Keepit Backup"
    nickname := str "Keepit Backup", licensQuantity := some 2
    amount := some 50, retailAmount := some 120, billingTypeId := none
    billingTypeDescription := some (str "Keepit"), entries := [] }

/-- The unknown-vendor subscription of the C1 example: cost 10, retail 25. -/
def contosoSubExample : Subscription :=
  { id := str "other", description := str "Other Product"
    nickname := str "Other Product", licensQuantity := some 1
    amount := some 10, retailAmount := some 25, billingTypeId := none
    billingTypeDescription := some (str "Contoso"), entries := [] }

/-- C1: the amount a subscription contributes to its aggregated product is
selected by vendor: when the resolved vendor name contains keepit, adobe or
microsoft (case-insensitive), the retail amount is used, falling back to the
cost amount when the retail amount is absent or not a number; for every
other vendor the cost amount is used, falling back to the retail amount;
0 when both are unusable.  In particular a Keepit subscription with cost 50
and retail 120 contributes 120, and an unknown-vendor (Contoso) subscription
with cost 10 and retail 25 contributes 10. -/
theorem c1_amount_basis_switching :
    (∀ (le : Str → Str → Bool) (sub : Subscription),
      (aggregateVendorsFromSubscriptions le (some [sub])).map
          (fun v => v.products.map (fun p => p.amount)) =
        [[if containsStr (lowerStr (vendorNameOf sub)) (str "keepit")
              || containsStr (lowerStr (vendorNameOf sub)) (str "adobe")
              || containsStr (lowerStr (vendorNameOf sub)) (str "microsoft")
          then
            match sub.retailAmount with
            | some r => r
            | none =>
              match sub.amount with
              | some a => a
              | none => 0
          else
            match sub.amount with
            | some a => a
            | none =>
              match sub.retailAmount with
              | some r => r
              | none => 0]]) ∧
    (aggregateVendorsFromSubscriptions leAny (some [keepitSubExample])).map
        (fun v => v.products.map (fun p => p.amount)) = [[(120 : ℚ)]] ∧
    (aggregateVendorsFromSubscriptions leAny (some [contosoSubExample])).map
        (fun v => v.products.map (fun p => p.amount)) = [[(10 : ℚ)]] := by
  refine ⟨?_, ?_, ?_⟩
  · intro le sub
    rw [aggregate_singleton]
    simp only [List.map_cons, List.map_nil]
    rw [products_stepVendorEntry_empty]
    simp only [List.map_cons, List.map_nil, finalizeProduct]
    rw [stepProduct_amount]
    simp only [emptyProduct, zero_add]
    rfl
  · simp +decide [aggregateVendorsFromSubscriptions, buildVendorMap,
      stepVendorMap, stepVendorEntry, stepProduct, alookup, aupsert,
      emptyVendor, emptyProduct, finalizeVendor, finalizeProduct, sortByLe,
      List.insertionSort, List.orderedInsert, keepitSubExample, effAmountOf,
      getAmountForVendor, licensesOf]
  · simp +decide [aggregateVendorsFromSubscriptions, buildVendorMap,
      stepVendorMap, stepVendorEntry, stepProduct, alookup, aupsert,
      emptyVendor, emptyProduct, finalizeVendor, finalizeProduct, sortByLe,
      List.insertionSort, List.orderedInsert, contosoSubExample, effAmountOf,
      getAmountForVendor, licensesOf]

/-- The "(NCE) Product X" subscription of the C2 example. -/
def nceSubExample : Subscription :=
  { id := str "nce", description := str "(NCE) Product X"
    nickname := str "(NCE) Product X", licensQuantity := some 4
    amount := some 400, retailAmount := some 400, billingTypeId := none
    billingTypeDescription := some (str "Microsoft"), entries := [] }

/-- The plain "Product X" subscription of the C2 example. -/
def plainSubExample : Subscription :=
  { id := str "std", description := str "Product X"
    nickname := str "Product X", licensQuantity := some 1
    amount := some 100, retailAmount := some 100, billingTypeId := none
    billingTypeDescription := some (str "Microsoft"), entries := [] }

/-- C2: two subscriptions of the same vendor whose labels share the
normalized grouping key (equal up to a leading (NCE) marker, internal
whitespace runs and letter case) merge into a single product bucket whose
licenses and amount are the sums of both, displayed under the NCE-stripped
label of the first-seen subscription. -/
theorem c2_nce_label_merge :
    ∀ (le : Str → Str → Bool) (s1 s2 : Subscription),
      vendorNameOf s2 = vendorNameOf s1 →
      productKeyOf s2 = productKeyOf s1 →
      ∃ v p, aggregateVendorsFromSubscriptions le (some [s1, s2]) = [v] ∧
        v.products = [p] ∧
        p.displayName = productLabelOf s1 ∧
        p.licenses = licensesOf s1 + licensesOf s2 ∧
        p.amount = effAmountOf s1 + effAmountOf s2 ∧
        v.totalLicenses = licensesOf s1 + licensesOf s2 ∧
        v.totalAmount = effAmountOf s1 + effAmountOf s2 := by
  intro le s1 s2 hv hk
  refine ⟨_, _, aggregate_pair le s1 s2 hv, products_pair le _ s1 s2 hk,
    ?_, ?_, ?_, ?_, ?_⟩
  · simp [finalizeProduct, stepProduct_displayName, emptyProduct]
  · simp [finalizeProduct, stepProduct_licenses, emptyProduct]
  · simp [finalizeProduct, stepProduct_amount, emptyProduct]
  · simp [finalizeVendor, stepVendorEntry, emptyVendor]
  · simp [finalizeVendor, stepVendorEntry, emptyVendor]

/-- Witness for C2 at the concrete example pair: the hypotheses hold for the
"(NCE) Product X" / "Product X" pair and the merged product is displayed as
"Product X". -/
theorem c2_nce_label_merge_witness :
    vendorNameOf plainSubExample = vendorNameOf nceSubExample ∧
    productKeyOf plainSubExample = productKeyOf nceSubExample ∧
    productLabelOf nceSubExample = str "Product X" ∧
    (∃ v p,
      aggregateVendorsFromSubscriptions leAny
          (some [nceSubExample, plainSubExample]) = [v] ∧
      v.products = [p] ∧
      p.displayName = productLabelOf nceSubExample ∧
      p.licenses = licensesOf nceSubExample + licensesOf plainSubExample ∧
      p.amount = effAmountOf nceSubExample + effAmountOf plainSubExample ∧
      v.totalLicenses = licensesOf nceSubExample + licensesOf plainSubExample ∧
      v.totalAmount = effAmountOf nceSubExample + effAmountOf plainSubExample) :=
  ⟨by decide, by decide, by decide,
    c2_nce_label_merge leAny nceSubExample plainSubExample (by decide)
      (by decide)⟩

/-- C7: the derived invoice status is Paid exactly when the remaining
tax-inclusive balance is zero; otherwise it is Overdue exactly when the due
date is lexicographically before the current date (fixed-width ISO strings),
and Unpaid in all remaining cases.  The same derivation appears in the
invoice-list and invoice-detail mappers. -/
theorem c7_status_derivation :
    ∀ (remaining : ℚ) (dueDate today : Str),
      (mapStatus remaining dueDate today = .Paid ↔ remaining = 0) ∧
      (mapStatus remaining dueDate today = .Overdue ↔
        remaining ≠ 0 ∧ lexLtStr dueDate today = true) ∧
      (mapStatus remaining dueDate today = .Unpaid ↔
        remaining ≠ 0 ∧ lexLtStr dueDate today = false) := by
  intro r d t
  by_cases h1 : r = 0
  · simp [mapStatus, h1]
  · by_cases h2 : lexLtStr d t = true
    · simp [mapStatus, h1, h2]
    · have h2f : lexLtStr d t = false := by simpa using h2
      simp [mapStatus, h1, h2f]

/-! Aging buckets (C6). -/

/-- daysPastDue of one invoice: floor((referenceMs - dueMs) / 1 day). -/
def daysPastDueOf (referenceMs : ℤ) (inv : Invoice) : ℤ :=
  Int.fdiv (referenceMs - (parseIsoDateMs inv.dueDate).getD 0) msPerDay

/-- Membership of a non-Paid invoice in the "0-30" bucket. -/
def inBucket0 (referenceMs : ℤ) (i : Invoice) : Bool :=
  decide (i.status ≠ .Paid ∧ daysPastDueOf referenceMs i ≤ 30)

/-- Membership in the "31-60" bucket. -/
def inBucket1 (referenceMs : ℤ) (i : Invoice) : Bool :=
  decide (i.status ≠ .Paid ∧ 30 < daysPastDueOf referenceMs i ∧
    daysPastDueOf referenceMs i ≤ 60)

/-- Membership in the "61-90" bucket. -/
def inBucket2 (referenceMs : ℤ) (i : Invoice) : Bool :=
  decide (i.status ≠ .Paid ∧ 60 < daysPastDueOf referenceMs i ∧
    daysPastDueOf referenceMs i ≤ 90)

/-- Membership in the "90+" bucket. -/
def inBucket3 (referenceMs : ℤ) (i : Invoice) : Bool :=
  decide (i.status ≠ .Paid ∧ 90 < daysPastDueOf referenceMs i)

/-- Tax-inclusive amount of one invoice. -/
def inclVatAmt (i : Invoice) : ℚ := i.amountInclVat.getD 0

theorem foldl_agingStep (referenceMs : ℤ) (l : List Invoice)
    (acc : AgingBuckets)
    (h : ∀ inv ∈ l, (parseIsoDateMs inv.dueDate).isSome = true) :
    (l.foldl (agingStep referenceMs) acc).b0to30 =
        acc.b0to30 + ((l.filter (inBucket0 referenceMs)).map inclVatAmt).sum ∧
      (l.foldl (agingStep referenceMs) acc).b31to60 =
        acc.b31to60 + ((l.filter (inBucket1 referenceMs)).map inclVatAmt).sum ∧
      (l.foldl (agingStep referenceMs) acc).b61to90 =
        acc.b61to90 + ((l.filter (inBucket2 referenceMs)).map inclVatAmt).sum ∧
      (l.foldl (agingStep referenceMs) acc).b90plus =
        acc.b90plus + ((l.filter (inBucket3 referenceMs)).map inclVatAmt).sum := by
  induction l generalizing acc with
  | nil => simp
  | cons inv tl ih =>
    have hhd := h inv (List.mem_cons_self _ _)
    have htl : ∀ i ∈ tl, (parseIsoDateMs i.dueDate).isSome = true :=
      fun i hi => h i (List.mem_cons.mpr (Or.inr hi))
    obtain ⟨t, ht⟩ := Option.isSome_iff_exists.mp hhd
    have hdd : diffInDays referenceMs inv.dueDate =
        some (daysPastDueOf referenceMs inv) := by
      simp [diffInDays, ht, daysPastDueOf]
    simp only [List.foldl_cons]
    by_cases hpaid : inv.status = .Paid
    · have hstep : agingStep referenceMs acc inv = acc := by
        simp [agingStep, hpaid]
      rw [hstep]
      obtain ⟨ih1, ih2, ih3, ih4⟩ := ih acc htl
      rw [ih1, ih2, ih3, ih4]
      simp [List.filter_cons, inBucket0, inBucket1, inBucket2, inBucket3,
        hpaid]
    · by_cases h30 : daysPastDueOf referenceMs inv ≤ 30
      · have hstep : agingStep referenceMs acc inv =
            { acc with b0to30 := acc.b0to30 + inclVatAmt inv } := by
          simp [agingStep, hpaid, hdd, h30, inclVatAmt]
        rw [hstep]
        obtain ⟨ih1, ih2, ih3, ih4⟩ :=
          ih { acc with b0to30 := acc.b0to30 + inclVatAmt inv } htl
        rw [ih1, ih2, ih3, ih4]
        have hf0 : (inv :: tl).filter (inBucket0 referenceMs) =
            inv :: tl.filter (inBucket0 referenceMs) := by
          simp [List.filter_cons, inBucket0, hpaid, h30]
        have hf1 : (inv :: tl).filter (inBucket1 referenceMs) =
            tl.filter (inBucket1 referenceMs) := by
          simp only [List.filter_cons, inBucket1]
          rw [if_neg (by simp; intro _ hlt; omega)]
        have hf2 : (inv :: tl).filter (inBucket2 referenceMs) =
            tl.filter (inBucket2 referenceMs) := by
          simp only [List.filter_cons, inBucket2]
          rw [if_neg (by simp; intro _ hlt; omega)]
        have hf3 : (inv :: tl).filter (inBucket3 referenceMs) =
            tl.filter (inBucket3 referenceMs) := by
          simp only [List.filter_cons, inBucket3]
          rw [if_neg (by simp; intro _; omega)]
        rw [hf0, hf1, hf2, hf3]
        refine ⟨?_, rfl, rfl, rfl⟩
        simp [List.sum_cons]
        ring
      · by_cases h60 : daysPastDueOf referenceMs inv ≤ 60
        · have hstep : agingStep referenceMs acc inv =
              { acc with b31to60 := acc.b31to60 + inclVatAmt inv } := by
            simp [agingStep, hpaid, hdd, h30, h60, inclVatAmt]
          rw [hstep]
          obtain ⟨ih1, ih2, ih3, ih4⟩ :=
            ih { acc with b31to60 := acc.b31to60 + inclVatAmt inv } htl
          rw [ih1, ih2, ih3, ih4]
          have hf0 : (inv :: tl).filter (inBucket0 referenceMs) =
              tl.filter (inBucket0 referenceMs) := by
            simp only [List.filter_cons, inBucket0]
            rw [if_neg (by simp; intro _; omega)]
          have hf1 : (inv :: tl).filter (inBucket1 referenceMs) =
              inv :: tl.filter (inBucket1 referenceMs) := by
            simp [List.filter_cons, inBucket1, hpaid, h60]
            omega
          have hf2 : (inv :: tl).filter (inBucket2 referenceMs) =
              tl.filter (inBucket2 referenceMs) := by
            simp only [List.filter_cons, inBucket2]
            rw [if_neg (by simp; intro _ hlt; omega)]
          have hf3 : (inv :: tl).filter (inBucket3 referenceMs) =
              tl.filter (inBucket3 referenceMs) := by
            simp only [List.filter_cons, inBucket3]
            rw [if_neg (by simp; intro _; omega)]
          rw [hf0, hf1, hf2, hf3]
          refine ⟨rfl, ?_, rfl, rfl⟩
          simp [List.sum_cons]
          ring
        · by_cases h90 : daysPastDueOf referenceMs inv ≤ 90
          · have hstep : agingStep referenceMs acc inv =
                { acc with b61to90 := acc.b61to90 + inclVatAmt inv } := by
              simp [agingStep, hpaid, hdd, h30, h60, h90, inclVatAmt]
            rw [hstep]
            obtain ⟨ih1, ih2, ih3, ih4⟩ :=
              ih { acc with b61to90 := acc.b61to90 + inclVatAmt inv } htl
            rw [ih1, ih2, ih3, ih4]
            have hf0 : (inv :: tl).filter (inBucket0 referenceMs) =
                tl.filter (inBucket0 referenceMs) := by
              simp only [List.filter_cons, inBucket0]
              rw [if_neg (by simp; intro _; omega)]
            have hf1 : (inv :: tl).filter (inBucket1 referenceMs) =
                tl.filter (inBucket1 referenceMs) := by
              simp only [List.filter_cons, inBucket1]
              rw [if_neg (by simp; intro _ _; omega)]
            have hf2 : (inv :: tl).filter (inBucket2 referenceMs) =
                inv :: tl.filter (inBucket2 referenceMs) := by
              simp [List.filter_cons, inBucket2, hpaid, h90]
              omega
            have hf3 : (inv :: tl).filter (inBucket3 referenceMs) =
                tl.filter (inBucket3 referenceMs) := by
              simp only [List.filter_cons, inBucket3]
              rw [if_neg (by simp; intro _; omega)]
            rw [hf0, hf1, hf2, hf3]
            refine ⟨rfl, rfl, ?_, rfl⟩
            simp [List.sum_cons]
            ring
          · have hstep : agingStep referenceMs acc inv =
                { acc with b90plus := acc.b90plus + inclVatAmt inv } := by
              simp [agingStep, hpaid, hdd, h30, h60, h90, inclVatAmt]
            rw [hstep]
            obtain ⟨ih1, ih2, ih3, ih4⟩ :=
              ih { acc with b90plus := acc.b90plus + inclVatAmt inv } htl
            rw [ih1, ih2, ih3, ih4]
            have hf0 : (inv :: tl).filter (inBucket0 referenceMs) =
                tl.filter (inBucket0 referenceMs) := by
              simp only [List.filter_cons, inBucket0]
              rw [if_neg (by simp; intro _; omega)]
            have hf1 : (inv :: tl).filter (inBucket1 referenceMs) =
                tl.filter (inBucket1 referenceMs) := by
              simp only [List.filter_cons, inBucket1]
              rw [if_neg (by simp; intro _ _; omega)]
            have hf2 : (inv :: tl).filter (inBucket2 referenceMs) =
                tl.filter (inBucket2 referenceMs) := by
              simp only [List.filter_cons, inBucket2]
              rw [if_neg (by simp; intro _ _; omega)]
            have hf3 : (inv :: tl).filter (inBucket3 referenceMs) =
                inv :: tl.filter (inBucket3 referenceMs) := by
              simp [List.filter_cons, inBucket3, hpaid]
              omega
            rw [hf0, hf1, hf2, hf3]
            refine ⟨rfl, rfl, rfl, ?_⟩
            simp [List.sum_cons]
            ring

/-- C6: for invoices with parseable due dates, the aging-bucket function
assigns each non-Paid invoice's tax-inclusive amount to exactly one bucket
of daysPastDue = floor((referenceDate - dueDate) / 1 day) with inclusive
upper bounds: at most 30 to "0-30" (including negative values), at most 60
to "31-60", at most 90 to "61-90", beyond to "90+"; Paid invoices
contribute to no bucket regardless of due date. -/
theorem c6_aging_bucket_boundaries :
    ∀ (invoices : List Invoice) (referenceMs : ℤ),
      (∀ inv ∈ invoices, (parseIsoDateMs inv.dueDate).isSome = true) →
      calculateAgingBuckets (some invoices) referenceMs =
        { b0to30 := ((invoices.filter (inBucket0 referenceMs)).map
            inclVatAmt).sum
          b31to60 := ((invoices.filter (inBucket1 referenceMs)).map
            inclVatAmt).sum
          b61to90 := ((invoices.filter (inBucket2 referenceMs)).map
            inclVatAmt).sum
          b90plus := ((invoices.filter (inBucket3 referenceMs)).map
            inclVatAmt).sum } := by
  intro invoices referenceMs h
  obtain ⟨h1, h2, h3, h4⟩ := foldl_agingStep referenceMs invoices
    ⟨0, 0, 0, 0⟩ h
  simp only [zero_add] at h1 h2 h3 h4
  have hc : calculateAgingBuckets (some invoices) referenceMs =
      List.foldl (agingStep referenceMs) ⟨0, 0, 0, 0⟩ invoices := rfl
  rw [hc]
  cases hfold : List.foldl (agingStep referenceMs) ⟨0, 0, 0, 0⟩ invoices with
  | mk a b c d =>
    rw [hfold] at h1 h2 h3 h4
    simp only at h1 h2 h3 h4
    rw [h1, h2, h3, h4]

/-- Witness for C6: the spec example fixture (invoices 6, 45, 75 and 120
days past due plus one Paid invoice) lands in the four buckets. -/
def c6Fixture : List Invoice :=
  [{ invoiceNumber := str "0-15", postingDate := str "2026-01-01"
     amount := some 1000, amountInclVat := some 100
     dueDate := str "2026-01-26", status := .Unpaid, invoicePdf := str ""
     billingDataExcel := str "" },
   { invoiceNumber := str "45", postingDate := str "2025-12-15"
     amount := some 1000, amountInclVat := some 200
     dueDate := str "2025-12-18", status := .Overdue, invoicePdf := str ""
     billingDataExcel := str "" },
   { invoiceNumber := str "75", postingDate := str "2025-11-15"
     amount := some 1000, amountInclVat := some 300
     dueDate := str "2025-11-18", status := .Overdue, invoicePdf := str ""
     billingDataExcel := str "" },
   { invoiceNumber := str "120", postingDate := str "2025-10-01"
     amount := some 1000, amountInclVat := some 400
     dueDate := str "2025-10-04", status := .Overdue, invoicePdf := str ""
     billingDataExcel := str "" },
   { invoiceNumber := str "paid", postingDate := str "2026-01-01"
     amount := some 1000, amountInclVat := some 999
     dueDate := str "2025-01-01", status := .Paid, invoicePdf := str ""
     billingDataExcel := str "" }]

/-- Reference instant of the C6 witness: 2026-02-01 UTC midnight. -/
def c6RefMs : ℤ := (parseIsoDateMs (str "2026-02-01")).getD 0

theorem c6_aging_bucket_boundaries_witness :
    (∀ inv ∈ c6Fixture, (parseIsoDateMs inv.dueDate).isSome = true) ∧
      calculateAgingBuckets (some c6Fixture) c6RefMs =
        { b0to30 := 100, b31to60 := 200, b61to90 := 300, b90plus := 400 } := by
  refine ⟨by decide, ?_⟩
  rw [c6_aging_bucket_boundaries c6Fixture c6RefMs (by decide)]
  simp +decide [c6Fixture, c6RefMs, inBucket0, inBucket1, inBucket2,
    inBucket3, inclVatAmt, daysPastDueOf, List.filter]

/-! Billing metrics (C8). -/

/-- Open invoice test: status is Unpaid or Overdue. -/
def isOpenInv (i : Invoice) : Bool :=
  decide (i.status = .Unpaid ∨ i.status = .Overdue)

/-- Overdue invoice test. -/
def isOverdueInv (i : Invoice) : Bool := decide (i.status = .Overdue)

theorem foldl_metricsStep (amountMode : BillingAmountMode)
    (currentMonthIso : Str) (l : List Invoice) (acc : MetricsAcc) :
    (l.foldl (metricsStep amountMode currentMonthIso) acc).totalInvoiced =
        acc.totalInvoiced + (l.map (basisAmount amountMode)).sum ∧
      (l.foldl (metricsStep amountMode currentMonthIso) acc).balanceDue =
        acc.balanceDue +
          ((l.filter isOpenInv).map (basisAmount amountMode)).sum ∧
      (l.foldl (metricsStep amountMode currentMonthIso) acc).overdueAmount =
        acc.overdueAmount +
          ((l.filter isOverdueInv).map (basisAmount amountMode)).sum ∧
      (l.foldl (metricsStep amountMode currentMonthIso) acc).openInvoiceCount =
        acc.openInvoiceCount + (l.filter isOpenInv).length ∧
      (l.foldl (metricsStep amountMode currentMonthIso) acc).invoiceAmountSum =
        acc.invoiceAmountSum + (l.map (basisAmount amountMode)).sum ∧
      (l.foldl (metricsStep amountMode currentMonthIso) acc).invoiceCount =
        acc.invoiceCount + l.length := by
  induction l generalizing acc with
  | nil => simp
  | cons inv tl ih =>
    simp only [List.foldl_cons]
    obtain ⟨ih1, ih2, ih3, ih4, ih5, ih6⟩ :=
      ih (metricsStep amountMode currentMonthIso acc inv)
    rw [ih1, ih2, ih3, ih4, ih5, ih6]
    simp only [metricsStep]
    by_cases hopen : inv.status = .Unpaid ∨ inv.status = .Overdue
    · by_cases hover : inv.status = .Overdue
      · simp [List.filter_cons, isOpenInv, isOverdueInv, hopen, hover,
          List.sum_cons]
        repeat' constructor
        all_goals ring
      · have hunp : inv.status = .Unpaid := hopen.resolve_right hover
        simp [List.filter_cons, isOpenInv, isOverdueInv, hopen, hover, hunp,
          List.sum_cons]
        repeat' constructor
        all_goals ring
    · have hover : ¬ inv.status = .Overdue := fun hh => hopen (Or.inr hh)
      have hunp : ¬ inv.status = .Unpaid := fun hh => hopen (Or.inl hh)
      simp [List.filter_cons, isOpenInv, isOverdueInv, hopen, hover, hunp,
        List.sum_cons]
      repeat' constructor
      all_goals ring

/-- The fixture of the C8 example: Paid 1000, Overdue 500, Unpaid 250. -/
def c8Fixture : List Invoice :=
  [{ invoiceNumber := str "INV-001", postingDate := str "2026-02-01"
     amount := some 1000, amountInclVat := some 1000
     dueDate := str "2026-02-15", status := .Paid, invoicePdf := str ""
     billingDataExcel := str "" },
   { invoiceNumber := str "INV-002", postingDate := str "2025-12-15"
     amount := some 500, amountInclVat := some 500
     dueDate := str "2026-01-01", status := .Overdue, invoicePdf := str ""
     billingDataExcel := str "" },
   { invoiceNumber := str "INV-003", postingDate := str "2026-02-10"
     amount := some 250, amountInclVat := some 250
     dueDate := str "2026-02-24", status := .Unpaid, invoicePdf := str ""
     billingDataExcel := str "" }]

/-- C8: the metrics function returns totalInvoiced as the sum of the
basis-selected amounts, balanceDue as the sum over Unpaid-or-Overdue
invoices, overdueAmount as the sum over Overdue invoices, openInvoiceCount
as the count of Unpaid-or-Overdue invoices, and averageInvoice as
totalInvoiced divided by the invoice count (0 for an empty list); on the
fixture [Paid 1000, Overdue 500, Unpaid 250] this yields 1750 / 750 / 500 /
2 and an average within 0.01 of 583.33. -/
theorem c8_billing_metrics :
    (∀ (invoices : List Invoice) (amountMode : BillingAmountMode)
        (currentMonthIso : Str),
      (calculateBillingMetrics (some invoices) amountMode
          currentMonthIso).totalInvoiced =
        (invoices.map (basisAmount amountMode)).sum ∧
      (calculateBillingMetrics (some invoices) amountMode
          currentMonthIso).balanceDue =
        ((invoices.filter isOpenInv).map (basisAmount amountMode)).sum ∧
      (calculateBillingMetrics (some invoices) amountMode
          currentMonthIso).overdueAmount =
        ((invoices.filter isOverdueInv).map (basisAmount amountMode)).sum ∧
      (calculateBillingMetrics (some invoices) amountMode
          currentMonthIso).openInvoiceCount =
        (invoices.filter isOpenInv).length ∧
      (calculateBillingMetrics (some invoices) amountMode
          currentMonthIso).averageInvoice =
        (if invoices.length = 0 then 0
         else (invoices.map (basisAmount amountMode)).sum /
           (invoices.length : ℚ))) ∧
    (calculateBillingMetrics (some c8Fixture) .inclVat
        (str "2026-02")).totalInvoiced = 1750 ∧
    (calculateBillingMetrics (some c8Fixture) .inclVat
        (str "2026-02")).balanceDue = 750 ∧
    (calculateBillingMetrics (some c8Fixture) .inclVat
        (str "2026-02")).overdueAmount = 500 ∧
    (calculateBillingMetrics (some c8Fixture) .inclVat
        (str "2026-02")).openInvoiceCount = 2 ∧
    |(calculateBillingMetrics (some c8Fixture) .inclVat
        (str "2026-02")).averageInvoice - 58333 / 100| < 1 / 100 := by
  have hgen : ∀ (invoices : List Invoice) (amountMode : BillingAmountMode)
      (currentMonthIso : Str),
      (calculateBillingMetrics (some invoices) amountMode
          currentMonthIso).totalInvoiced =
        (invoices.map (basisAmount amountMode)).sum ∧
      (calculateBillingMetrics (some invoices) amountMode
          currentMonthIso).balanceDue =
        ((invoices.filter isOpenInv).map (basisAmount amountMode)).sum ∧
      (calculateBillingMetrics (some invoices) amountMode
          currentMonthIso).overdueAmount =
        ((invoices.filter isOverdueInv).map (basisAmount amountMode)).sum ∧
      (calculateBillingMetrics (some invoices) amountMode
          currentMonthIso).openInvoiceCount =
        (invoices.filter isOpenInv).length ∧
      (calculateBillingMetrics (some invoices) amountMode
          currentMonthIso).averageInvoice =
        (if invoices.length = 0 then 0
         else (invoices.map (basisAmount amountMode)).sum /
           (invoices.length : ℚ)) := by
    intro invoices amountMode currentMonthIso
    obtain ⟨h1, h2, h3, h4, h5, h6⟩ := foldl_metricsStep amountMode
      currentMonthIso invoices
      { totalInvoiced := 0, balanceDue := 0, overdueAmount := 0
        currentMonthVolume := 0, paidThisMonth := 0, openInvoiceCount := 0
        invoiceAmountSum := 0, invoiceCount := 0 }
    simp only [zero_add] at h1 h2 h3 h4 h5 h6
    refine ⟨?_, ?_, ?_, ?_, ?_⟩
    · exact h1
    · exact h2
    · exact h3
    · exact h4
    · have hgoal : (calculateBillingMetrics (some invoices) amountMode
          currentMonthIso).averageInvoice =
          (if (List.foldl (metricsStep amountMode currentMonthIso)
              { totalInvoiced := 0, balanceDue := 0, overdueAmount := 0
                currentMonthVolume := 0, paidThisMonth := 0
                openInvoiceCount := 0, invoiceAmountSum := 0
                invoiceCount := 0 } invoices).invoiceCount > 0 then
            (List.foldl (metricsStep amountMode currentMonthIso)
              { totalInvoiced := 0, balanceDue := 0, overdueAmount := 0
                currentMonthVolume := 0, paidThisMonth := 0
                openInvoiceCount := 0, invoiceAmountSum := 0
                invoiceCount := 0 } invoices).invoiceAmountSum /
              ((List.foldl (metricsStep amountMode currentMonthIso)
                { totalInvoiced := 0, balanceDue := 0, overdueAmount := 0
                  currentMonthVolume := 0, paidThisMonth := 0
                  openInvoiceCount := 0, invoiceAmountSum := 0
                  invoiceCount := 0 } invoices).invoiceCount : ℚ)
          else 0) := rfl
      rw [hgoal, h5, h6]
      by_cases hlen : invoices.length = 0
      · simp [hlen]
      · rw [if_pos (by omega), if_neg hlen]
  refine ⟨hgen, ?_, ?_, ?_, ?_, ?_⟩
  · rw [(hgen c8Fixture .inclVat (str "2026-02")).1]
    simp +decide [c8Fixture, basisAmount]
    norm_num
  · rw [(hgen c8Fixture .inclVat (str "2026-02")).2.1]
    simp +decide [c8Fixture, basisAmount, isOpenInv, List.filter]
    norm_num
  · rw [(hgen c8Fixture .inclVat (str "2026-02")).2.2.1]
    simp +decide [c8Fixture, basisAmount, isOverdueInv, List.filter]
  · rw [(hgen c8Fixture .inclVat (str "2026-02")).2.2.2.1]
    simp +decide [c8Fixture, isOpenInv, List.filter]
  · rw [(hgen c8Fixture .inclVat (str "2026-02")).2.2.2.2]
    simp +decide [c8Fixture, basisAmount]
    rw [abs_sub_lt_iff]
    constructor <;> norm_num

/-! Discount store (C9). -/

/-- Well-formedness of the stored discount state: JavaScript objects cannot
hold duplicate keys at either level. -/
def discountsWF (st : TenantDiscountState) : Prop :=
  keysNodup st ∧ ∀ kv ∈ st, keysNodup kv.2

theorem alookup_of_aremove_nil {α : Type} (m : List (Str × α)) (k k' : Str)
    (hnil : aremove m k = []) (hne : k' ≠ k) : alookup m k' = none := by
  induction m with
  | nil => simp [alookup]
  | cons hd tl ih =>
    obtain ⟨a, b⟩ := hd
    by_cases hak : a = k
    · subst hak
      have htl : tl = [] := by simpa [aremove] using hnil
      subst htl
      have hk : a ≠ k' := Ne.symm hne
      simp [alookup, hk]
    · exfalso
      have h2 : aremove ((a, b) :: tl) k = (a, b) :: aremove tl k := by
        simp [aremove, hak]
      rw [h2] at hnil
      exact List.cons_ne_nil _ _ hnil

/-- C9: writing a numeric rate stores the rate clamped to [0, 100] and
rounded to 2 decimals under the product key; writing null (or NaN, both
modelled as `none`) removes the override so a subsequent read is absent;
all other stored entries are untouched by either operation.  Concretely,
33.456 is stored as 33.46 and 150 as 100. -/
theorem c9_discount_rate_normalization :
    (∀ (st : TenantDiscountState) (tid v p : Str) (r : ℚ),
      discountsWF st →
        getDiscountRate (setDiscountRate st (some tid) v p (some r))
            (some tid) v p = some (normalizeRate r) ∧
        getDiscountRate (setDiscountRate st (some tid) v p none)
            (some tid) v p = none ∧
        (∀ tid' v' p',
          tid' ≠ tid ∨ makeProductKey v' p' ≠ makeProductKey v p →
          getDiscountRate (setDiscountRate st (some tid) v p (some r))
              (some tid') v' p' = getDiscountRate st (some tid') v' p' ∧
          getDiscountRate (setDiscountRate st (some tid) v p none)
              (some tid') v' p' = getDiscountRate st (some tid') v' p')) ∧
    normalizeRate (33456 / 1000) = 3346 / 100 ∧
    normalizeRate 150 = 100 := by
  refine ⟨?_, ?_, ?_⟩
  · intro st tid v p r hwf
    refine ⟨?_, ?_, ?_⟩
    · simp [setDiscountRate, getDiscountRate, alookup_aupsert]
    · simp only [setDiscountRate, getDiscountRate]
      cases hst : alookup st tid with
      | none =>
        simp [alookup, hst]
      | some td0 =>
        have hnd0 : keysNodup td0 := hwf.2 (tid, td0)
          (mem_of_alookup_some _ _ _ hst)
        by_cases hlk : (alookup td0 (makeProductKey v p)).isNone = true
        · simp [hst, hlk, Option.isNone_iff_eq_none.mp hlk]
        · simp only [hst, Option.getD_some, hlk, Bool.false_eq_true,
            if_false]
          by_cases hrest : aremove td0 (makeProductKey v p) = []
          · rw [if_pos hrest]
            simp [alookup_aremove_self st tid hwf.1]
          · rw [if_neg hrest]
            simp [alookup_aupsert,
              alookup_aremove_self td0 (makeProductKey v p) hnd0]
    · intro tid' v' p' hne
      by_cases htid : tid' = tid
      · subst htid
        have hk : makeProductKey v' p' ≠ makeProductKey v p :=
          hne.resolve_left (fun hh => hh rfl)
        constructor
        · simp only [setDiscountRate, getDiscountRate]
          rw [alookup_aupsert, if_pos rfl]
          simp only [Option.some_bind]
          rw [alookup_aupsert, if_neg (fun hh => hk hh.symm)]
          cases hst : alookup st tid' <;> simp [hst, alookup]
        · simp only [setDiscountRate, getDiscountRate]
          cases hst : alookup st tid' with
          | none => simp [hst, alookup]
          | some td0 =>
            by_cases hlk : (alookup td0 (makeProductKey v p)).isNone = true
            · simp [hst, hlk]
            · simp only [hst, Option.getD_some, hlk, Bool.false_eq_true,
                if_false]
              by_cases hrest : aremove td0 (makeProductKey v p) = []
              · rw [if_pos hrest]
                simp [alookup_aremove_self st tid' hwf.1, hst,
                  alookup_of_aremove_nil td0 (makeProductKey v p)
                    (makeProductKey v' p') hrest hk]
              · rw [if_neg hrest]
                simp only [Option.some_bind, hst]
                rw [alookup_aupsert, if_pos rfl]
                simp only [Option.some_bind]
                rw [alookup_aremove_ne td0 (makeProductKey v p)
                  (makeProductKey v' p') (fun hh => hk hh.symm)]
      · constructor
        · simp only [setDiscountRate, getDiscountRate]
          rw [alookup_aupsert, if_neg (fun hh => htid hh.symm)]
        · simp only [setDiscountRate, getDiscountRate]
          cases hst : alookup st tid with
          | none => simp [hst, alookup]
          | some td0 =>
            by_cases hlk : (alookup td0 (makeProductKey v p)).isNone = true
            · simp [hst, hlk]
            · simp only [hst, Option.getD_some, hlk, Bool.false_eq_true,
                if_false]
              by_cases hrest : aremove td0 (makeProductKey v p) = []
              · rw [if_pos hrest]
                rw [alookup_aremove_ne st tid tid' (fun hh => htid hh.symm)]
              · rw [if_neg hrest]
                rw [alookup_aupsert, if_neg (fun hh => htid hh.symm)]
  · have h1 : clampRate (33456 / 1000) = 33456 / 1000 := by
      rw [clampRate, max_eq_right (by norm_num), min_eq_right (by norm_num)]
    have h2 : (33456 / 1000 : ℚ) * 100 + 1 / 2 = 33461 / 10 := by norm_num
    have h3 : Int.floor ((33461 : ℚ) / 10) = 3346 := by
      rw [Int.floor_eq_iff]
      constructor <;> norm_num
    rw [normalizeRate, jsRound, h1, h2, h3]
    norm_num
  · have h1 : clampRate 150 = 100 := by
      rw [clampRate, max_eq_right (by norm_num), min_eq_left (by norm_num)]
    have h3 : Int.floor ((100 : ℚ) * 100 + 1 / 2) = 10000 := by
      rw [Int.floor_eq_iff]
      constructor <;> norm_num
    rw [normalizeRate, jsRound, h1, h3]
    norm_num

/-- Witness for C9: on the empty store, setting 33.456 stores 33.46 and a
subsequent null write removes the entry. -/
theorem c9_discount_rate_normalization_witness :
    discountsWF [] ∧
    getDiscountRate (setDiscountRate [] (some (str "tenant-1"))
        (str "Microsoft") (str "M365 Business Premium")
        (some (33456 / 1000))) (some (str "tenant-1")) (str "Microsoft")
      (str "M365 Business Premium") = some (3346 / 100) ∧
    getDiscountRate (setDiscountRate [] (some (str "tenant-1"))
        (str "Microsoft") (str "M365 Business Premium") none)
      (some (str "tenant-1")) (str "Microsoft")
      (str "M365 Business Premium") = none := by
  have hwf : discountsWF [] := ⟨by simp [keysNodup], by simp⟩
  obtain ⟨h1, h2, _⟩ := c9_discount_rate_normalization.1 [] (str "tenant-1")
    (str "Microsoft") (str "M365 Business Premium") (33456 / 1000) hwf
  exact ⟨hwf, by rw [h1, c9_discount_rate_normalization.2.1], h2⟩

/-- C3 counterexample: the labels "Product  X" (double space) and
"Product X" share the aggregation grouping key but get distinct discount
keys, so the discount-key derivation does not match the grouping-key
normalization exactly. -/
theorem c3_product_key_counterexample :
    normalizeLabel (str "Product  X") = normalizeLabel (str "Product X") ∧
    makeProductKey (str "Vendor") (str "Product  X") ≠
      makeProductKey (str "Vendor") (str "Product X") := by
  constructor
  · decide
  · decide

/-- C3 (amended): the client hook and the persistence service derive the
identical product key; two labels get the same discount key under a fixed
vendor exactly when they agree letter-case-insensitively, and that refines
the aggregation grouping key (equal discount keys imply the same grouping
bucket) — but not conversely, as labels differing only in whitespace runs
or a leading (NCE) marker share a bucket yet receive distinct keys. -/
theorem c3_discount_key_refines_grouping_key :
    (∀ v p, makeProductKey v p = makeProductKeyApi v p) ∧
    (∀ (v p1 p2 : Str),
      makeProductKey v p1 = makeProductKey v p2 ↔ lowerStr p1 = lowerStr p2) ∧
    (∀ (p1 p2 : Str),
      lowerStr p1 = lowerStr p2 → normalizeLabel p1 = normalizeLabel p2) := by
  refine ⟨fun v p => rfl, ?_, normalizeLabel_eq_of_lower_eq⟩
  intro v p1 p2
  constructor
  · intro h
    have h2 : lowerStr v ++ (lowerStr (str "::") ++ lowerStr p1) =
        lowerStr v ++ (lowerStr (str "::") ++ lowerStr p2) := by
      simpa [makeProductKey, lowerStr, List.map_append, List.append_assoc]
        using h
    exact List.append_cancel_left (List.append_cancel_left h2)
  · intro h
    simp only [lowerStr] at h
    simp [makeProductKey, lowerStr, List.map_append, h]

/-- Witness for C3 (amended): case-insensitively equal labels share the
grouping key. -/
theorem c3_discount_key_refines_grouping_key_witness :
    lowerStr (str "PRODUCT x") = lowerStr (str "product X") ∧
    normalizeLabel (str "PRODUCT x") = normalizeLabel (str "product X") :=
  ⟨by decide,
    c3_discount_key_refines_grouping_key.2.2 (str "PRODUCT x")
      (str "product X") (by decide)⟩

/-- C10: every aggregated vendor satisfies the internal consistency
equations totalAmount = sum of its products' amounts and totalLicenses =
sum of its products' licenses. -/
theorem c10_vendor_totals_invariant :
    ∀ (le : Str → Str → Bool) (subs : List Subscription)
      (v : AggregatedVendor),
      v ∈ aggregateVendorsFromSubscriptions le (some subs) →
      v.totalAmount = (v.products.map (fun p => p.amount)).sum ∧
      v.totalLicenses = (v.products.map (fun p => p.licenses)).sum := by
  intro le subs v hv
  have hagg : aggregateVendorsFromSubscriptions le (some subs) =
      sortByLe (fun a b => le a.vendorName b.vendorName)
        (((buildVendorMap subs).map Prod.snd).map (finalizeVendor le)) := rfl
  rw [hagg] at hv
  have hv2 : v ∈ ((buildVendorMap subs).map Prod.snd).map (finalizeVendor le) :=
    (sortByLe_perm _ _).mem_iff.mp hv
  obtain ⟨acc, hacc, hfin⟩ := List.mem_map.mp hv2
  obtain ⟨kv, hkv, hsnd⟩ := List.mem_map.mp hacc
  obtain ⟨hfil, he⟩ := mem_buildVendorMap_elim subs kv.1 kv.2
    (by exact hkv)
  constructor
  · have h1 : v.totalAmount = kv.2.totalAmount := by
      rw [← hfin, ← hsnd]
      rfl
    have h2 : (v.products.map (fun p => p.amount)).sum =
        sumVals (fun p => p.amount) kv.2.productsMap := by
      rw [← hfin, ← hsnd]
      show ((sortByLe _ ((kv.2.productsMap.map Prod.snd).map
        (finalizeProduct le))).map (fun p => p.amount)).sum = _
      rw [sortByLe_sum]
      rw [List.map_map, List.map_map]
      rfl
    rw [h1, h2, he, foldl_stepVendorEntry_totalAmount,
      sumVals_productsMap_foldl_amount]
    simp [emptyVendor, sumVals]
  · have h1 : v.totalLicenses = kv.2.totalLicenses := by
      rw [← hfin, ← hsnd]
      rfl
    have h2 : (v.products.map (fun p => p.licenses)).sum =
        sumVals (fun p => p.licenses) kv.2.productsMap := by
      rw [← hfin, ← hsnd]
      show ((sortByLe _ ((kv.2.productsMap.map Prod.snd).map
        (finalizeProduct le))).map (fun p => p.licenses)).sum = _
      rw [sortByLe_sum]
      rw [List.map_map, List.map_map]
      rfl
    rw [h1, h2, he, foldl_stepVendorEntry_totalLicenses,
      sumVals_productsMap_foldl_licenses]
    simp [emptyVendor, sumVals]

/-- Subscription used by the C10 witness. -/
def c10SubExample : Subscription :=
  { id := str "sub-1", description := str "Adobe Creative Cloud"
    nickname := str "Adobe CC", licensQuantity := some 5
    amount := some 200, retailAmount := some 350, billingTypeId := none
    billingTypeDescription := some (str "Adobe"), entries := [] }

/-- Witness for C10 at a concrete singleton aggregation. -/
theorem c10_vendor_totals_invariant_witness :
    (finalizeVendor leAny
        (stepVendorEntry (emptyVendor (vendorNameOf c10SubExample))
          c10SubExample)) ∈
      aggregateVendorsFromSubscriptions leAny (some [c10SubExample]) ∧
    ((finalizeVendor leAny
        (stepVendorEntry (emptyVendor (vendorNameOf c10SubExample))
          c10SubExample)).totalAmount =
      ((finalizeVendor leAny
        (stepVendorEntry (emptyVendor (vendorNameOf c10SubExample))
          c10SubExample)).products.map (fun p => p.amount)).sum ∧
      (finalizeVendor leAny
        (stepVendorEntry (emptyVendor (vendorNameOf c10SubExample))
          c10SubExample)).totalLicenses =
      ((finalizeVendor leAny
        (stepVendorEntry (emptyVendor (vendorNameOf c10SubExample))
          c10SubExample)).products.map (fun p => p.licenses)).sum) := by
  have hmem : (finalizeVendor leAny
      (stepVendorEntry (emptyVendor (vendorNameOf c10SubExample))
        c10SubExample)) ∈
      aggregateVendorsFromSubscriptions leAny (some [c10SubExample]) := by
    rw [aggregate_singleton]
    exact List.mem_singleton_self _
  exact ⟨hmem, c10_vendor_totals_invariant leAny [c10SubExample] _ hmem⟩

/-! The response-mapper fallback chain (C5). -/

/-- C5: the mapper derives a tenant's subscription list by four strategies
in order, taking the first with a non-empty result: (1) the explicit
subscriptions array (one mapped subscription per raw subscription), (2) the
flat entries array (one synthetic subscription per entry), (3) the
connectors array, with amount = quantity × unit price when an explicit
amount is absent (0 when a factor is also missing), and (4) one
subscription synthesized from the tenant's own aggregate fields; a strategy
is never used when an earlier one produced a non-empty list. -/
theorem c5_subscription_fallback_chain :
    ∀ (line : LineCtx) (tenant : ApiTenant),
      ((tenant.subscriptions.getD []) ≠ [] →
        mapSubscriptions line tenant =
          mappedSubscriptions line (tenant.subscriptions.getD []) ∧
        (mapSubscriptions line tenant).length =
          (tenant.subscriptions.getD []).length) ∧
      ((tenant.subscriptions.getD []) = [] →
        (tenant.entries.getD []) ≠ [] →
        mapSubscriptions line tenant = directEntriesOf line tenant ∧
        (mapSubscriptions line tenant).length =
          (tenant.entries.getD []).length) ∧
      ((tenant.subscriptions.getD []) = [] →
        (tenant.entries.getD []) = [] →
        (tenant.connectors.getD []) ≠ [] →
        mapSubscriptions line tenant = connectorSubscriptionsOf line tenant ∧
        (mapSubscriptions line tenant).length =
          (tenant.connectors.getD []).length ∧
        (mapSubscriptions line tenant).map (fun s => s.amount) =
          (tenant.connectors.getD []).map
            (fun c => some (connectorAmount tenant c))) ∧
      ((tenant.subscriptions.getD []) = [] →
        (tenant.entries.getD []) = [] →
        (tenant.connectors.getD []) = [] →
        mapSubscriptions line tenant = tenantFallbackSubscription line tenant ∧
        (mapSubscriptions line tenant).length = 1) := by
  intro line tenant
  refine ⟨?_, ?_, ?_, ?_⟩
  · intro h1
    have hlen : (tenant.subscriptions.getD []).length > 0 :=
      List.length_pos.mpr h1
    have hmap : mapSubscriptions line tenant =
        mappedSubscriptions line (tenant.subscriptions.getD []) := by
      rw [mapSubscriptions, if_pos hlen]
    refine ⟨hmap, ?_⟩
    rw [hmap, mappedSubscriptions, List.length_map]
  · intro h1 h2
    have hlen1 : ¬ (tenant.subscriptions.getD []).length > 0 := by
      simp [h1]
    have hdir : (directEntriesOf line tenant).length =
        (tenant.entries.getD []).length := by
      rw [directEntriesOf, List.length_map, List.enum_length]
    have hlen2 : (directEntriesOf line tenant).length > 0 := by
      rw [hdir]
      exact List.length_pos.mpr h2
    have hmap : mapSubscriptions line tenant = directEntriesOf line tenant := by
      rw [mapSubscriptions, if_neg hlen1, if_pos hlen2]
    exact ⟨hmap, by rw [hmap, hdir]⟩
  · intro h1 h2 h3
    have hlen1 : ¬ (tenant.subscriptions.getD []).length > 0 := by
      simp [h1]
    have hdir : (directEntriesOf line tenant).length = 0 := by
      rw [directEntriesOf, List.length_map, List.enum_length, h2]
      rfl
    have hlen2 : ¬ (directEntriesOf line tenant).length > 0 := by
      simp [hdir]
    have hcon : (connectorSubscriptionsOf line tenant).length =
        (tenant.connectors.getD []).length := by
      rw [connectorSubscriptionsOf, List.length_map, List.enum_length]
    have hlen3 : (connectorSubscriptionsOf line tenant).length > 0 := by
      rw [hcon]
      exact List.length_pos.mpr h3
    have hmap : mapSubscriptions line tenant =
        connectorSubscriptionsOf line tenant := by
      rw [mapSubscriptions, if_neg hlen1, if_neg hlen2, if_pos hlen3]
    refine ⟨hmap, by rw [hmap, hcon], ?_⟩
    rw [hmap, connectorSubscriptionsOf, List.map_map]
    have hsnd : (tenant.connectors.getD []).enum.map Prod.snd =
        tenant.connectors.getD [] := List.enum_map_snd _
    conv_rhs => rw [← hsnd, List.map_map]
    rfl
  · intro h1 h2 h3
    have hlen1 : ¬ (tenant.subscriptions.getD []).length > 0 := by
      simp [h1]
    have hdir : (directEntriesOf line tenant).length = 0 := by
      rw [directEntriesOf, List.length_map, List.enum_length, h2]
      rfl
    have hlen2 : ¬ (directEntriesOf line tenant).length > 0 := by
      simp [hdir]
    have hcon : (connectorSubscriptionsOf line tenant).length = 0 := by
      rw [connectorSubscriptionsOf, List.length_map, List.enum_length, h3]
      rfl
    have hlen3 : ¬ (connectorSubscriptionsOf line tenant).length > 0 := by
      simp [hcon]
    have hmap : mapSubscriptions line tenant =
        tenantFallbackSubscription line tenant := by
      rw [mapSubscriptions, if_neg hlen1, if_neg hlen2, if_neg hlen3]
    exact ⟨hmap, by simp [hmap, tenantFallbackSubscription]⟩

/-- The connector-shaped tenant of the C5 witness: no subscriptions, no
entries, one connector with no explicit amount and quantity 4 at unit
price 25. -/
def c5ConnectorTenant : ApiTenant :=
  { id := str "tenant-1", name := str "Tenant", domain := str "tenant.example"
    amount := none, retailAmount := none, customerName := str "Customer"
    customerVatId := str "", customerReference := str ""
    productId := none, productDescription := some (str "Connector Product")
    quantity := none, unitPrice := none, retailUnitPrice := none
    entries := some []
    connectors := some
      [{ id := some (str "conn-1"), description := some (str "Connector A")
         quantity := some 4, unitPrice := some 25, retailUnitPrice := some 30
         amount := none, retailAmount := none }]
    subscriptions := none }

/-- Line context of the C5 witness. -/
def c5Line : LineCtx :=
  { description := some (str "Line"), billingTypeId := none
    billingTypeDescription := some (str "Vendor") }

/-- Witness for C5: on a tenant with only a connector, the chain falls
through to strategy 3 and computes amount = 4 × 25 = 100. -/
theorem c5_subscription_fallback_chain_witness :
    (c5ConnectorTenant.subscriptions.getD []) = [] ∧
    (c5ConnectorTenant.entries.getD []) = [] ∧
    (c5ConnectorTenant.connectors.getD []) ≠ [] ∧
    (mapSubscriptions c5Line c5ConnectorTenant =
      connectorSubscriptionsOf c5Line c5ConnectorTenant ∧
    (mapSubscriptions c5Line c5ConnectorTenant).length =
      (c5ConnectorTenant.connectors.getD []).length ∧
    (mapSubscriptions c5Line c5ConnectorTenant).map (fun s => s.amount) =
      (c5ConnectorTenant.connectors.getD []).map
        (fun c => some (connectorAmount c5ConnectorTenant c))) ∧
    (mapSubscriptions c5Line c5ConnectorTenant).map (fun s => s.amount) =
      [some 100] := by
  refine ⟨by decide, by decide, by decide, ?_, ?_⟩
  · exact (c5_subscription_fallback_chain c5Line c5ConnectorTenant).2.2.1
      (by decide) (by decide) (by decide)
  · have h := ((c5_subscription_fallback_chain c5Line
      c5ConnectorTenant).2.2.1 (by decide) (by decide) (by decide)).2.2
    rw [h]
    simp +decide [c5ConnectorTenant, connectorAmount]
    norm_num

/-! Order-independence of the aggregation (C4). -/

/-- First C4 fixture: label "ABC". -/
def c4SubUpper : Subscription :=
  { id := str "a1", description := str "ABC", nickname := str "ABC"
    licensQuantity := some 1, amount := some 10, retailAmount := some 20
    billingTypeId := none, billingTypeDescription := some (str "Vendor")
    entries := [] }

/-- Second C4 fixture: label "abc", same vendor and same grouping key. -/
def c4SubLower : Subscription :=
  { id := str "a2", description := str "abc", nickname := str "abc"
    licensQuantity := some 1, amount := some 10, retailAmount := some 20
    billingTypeId := none, billingTypeDescription := some (str "Vendor")
    entries := [] }

/-- Counterexample to C4 as stated: permuting the input changes the product
display label (the first-seen raw label wins), so the result sets are not
equal up to display order. -/
theorem c4_counterexample :
    ((aggregateVendorsFromSubscriptions leAny
        (some [c4SubUpper, c4SubLower])).map
      (fun v => v.products.map (fun p => p.displayName)) = [[str "ABC"]]) ∧
    ((aggregateVendorsFromSubscriptions leAny
        (some [c4SubLower, c4SubUpper])).map
      (fun v => v.products.map (fun p => p.displayName)) = [[str "abc"]]) ∧
    ((aggregateVendorsFromSubscriptions leAny
        (some [c4SubUpper, c4SubLower])).map
      (fun v => v.products.map (fun p => p.displayName)) ≠
      (aggregateVendorsFromSubscriptions leAny
        (some [c4SubLower, c4SubUpper])).map
      (fun v => v.products.map (fun p => p.displayName))) := by
  refine ⟨by decide, by decide, by decide⟩

theorem alookup_productsMap_foldl_empty (l : List Subscription)
    (vname k : Str) :
    alookup ((l.foldl stepVendorEntry (emptyVendor vname)).productsMap) k =
      match l.filter (fun s => decide (productKeyOf s = k)) with
      | [] => none
      | s0 :: tl =>
        some ((s0 :: tl).foldl stepProduct
          (emptyProduct (productLabelOf s0))) := by
  rw [alookup_productsMap_foldl]
  rfl

/-- C4 (amended): for every permutation of the subscription list the
aggregation yields the same set of vendors and products with the same
licenses and amounts (observed per vendor name and product grouping key;
display labels may differ when differently-written raw labels share a
bucket, and display order may differ); and aggregating [A, A] yields one
product whose licenses and amount are the sums of both copies. -/
theorem c4_order_independence :
    (∀ (le le' : Str → Str → Bool) (subs subs' : List Subscription),
      subs.Perm subs' → ∀ vname key,
      vendorStats (aggregateVendorsFromSubscriptions le (some subs)) vname =
        vendorStats (aggregateVendorsFromSubscriptions le' (some subs'))
          vname ∧
      productStats (aggregateVendorsFromSubscriptions le (some subs)) vname
          key =
        productStats (aggregateVendorsFromSubscriptions le' (some subs'))
          vname key) ∧
    (∀ (le : Str → Str → Bool) (sub : Subscription),
      ∃ v p, aggregateVendorsFromSubscriptions le (some [sub, sub]) = [v] ∧
        v.products = [p] ∧
        p.licenses = licensesOf sub + licensesOf sub ∧
        p.amount = effAmountOf sub + effAmountOf sub) := by
  constructor
  · intro le le' subs subs' hperm vname key
    have hpf := hperm.filter (fun s => decide (vendorNameOf s = vname))
    constructor
    · rw [vendorStats_eq, vendorStats_eq, alookup_buildVendorMap,
        alookup_buildVendorMap]
      by_cases h0 : subs.filter (fun s => decide (vendorNameOf s = vname)) = []
      · have h0' : subs'.filter (fun s => decide (vendorNameOf s = vname)) =
            [] := List.Perm.eq_nil (h0 ▸ hpf).symm
        rw [if_pos h0, if_pos h0']
      · have h0' : ¬ subs'.filter (fun s => decide (vendorNameOf s = vname)) =
            [] := fun hh => h0 (List.Perm.eq_nil (hh ▸ hpf))
        rw [if_neg h0, if_neg h0']
        have hl := (hpf.map licensesOf).sum_eq
        have ha := (hpf.map effAmountOf).sum_eq
        simp [foldl_stepVendorEntry_totalLicenses,
          foldl_stepVendorEntry_totalAmount, emptyVendor, hl, ha]
    · rw [productStats_eq, productStats_eq, alookup_buildVendorMap,
        alookup_buildVendorMap]
      by_cases h0 : subs.filter (fun s => decide (vendorNameOf s = vname)) = []
      · have h0' : subs'.filter (fun s => decide (vendorNameOf s = vname)) =
            [] := List.Perm.eq_nil (h0 ▸ hpf).symm
        rw [if_pos h0, if_pos h0']
      · have h0' : ¬ subs'.filter (fun s => decide (vendorNameOf s = vname)) =
            [] := fun hh => h0 (List.Perm.eq_nil (hh ▸ hpf))
        rw [if_neg h0, if_neg h0']
        simp only [Option.some_bind]
        rw [alookup_productsMap_foldl_empty, alookup_productsMap_foldl_empty]
        have hpf2 := hpf.filter (fun s => decide (productKeyOf s = key))
        cases h2 : (subs.filter (fun s => decide (vendorNameOf s = vname))).filter
            (fun s => decide (productKeyOf s = key)) with
        | nil =>
          rw [h2] at hpf2
          have h2' : (subs'.filter (fun s => decide (vendorNameOf s =
              vname))).filter (fun s => decide (productKeyOf s = key)) = [] :=
            List.perm_nil.mp hpf2.symm
          rw [h2']
        | cons s0 tl =>
          rw [h2] at hpf2
          cases h2' : (subs'.filter (fun s => decide (vendorNameOf s =
              vname))).filter (fun s => decide (productKeyOf s = key)) with
          | nil =>
            rw [h2'] at hpf2
            exact absurd (List.perm_nil.mp hpf2) (List.cons_ne_nil _ _)
          | cons s0' tl' =>
            rw [h2'] at hpf2
            simp only [Option.map_some']
            have hl1 := foldl_stepProduct_licenses (s0 :: tl)
              (emptyProduct (productLabelOf s0))
            have hl2 := foldl_stepProduct_licenses (s0' :: tl')
              (emptyProduct (productLabelOf s0'))
            have ha1 := foldl_stepProduct_amount (s0 :: tl)
              (emptyProduct (productLabelOf s0))
            have ha2 := foldl_stepProduct_amount (s0' :: tl')
              (emptyProduct (productLabelOf s0'))
            have hsl := (hpf2.map licensesOf).sum_eq
            have hsa := (hpf2.map effAmountOf).sum_eq
            refine congrArg some ?_
            show ((List.foldl stepProduct (emptyProduct (productLabelOf s0))
                  (s0 :: tl)).licenses,
                (List.foldl stepProduct (emptyProduct (productLabelOf s0))
                  (s0 :: tl)).amount) =
              ((List.foldl stepProduct (emptyProduct (productLabelOf s0'))
                  (s0' :: tl')).licenses,
                (List.foldl stepProduct (emptyProduct (productLabelOf s0'))
                  (s0' :: tl')).amount)
            rw [hl1, hl2, ha1, ha2, hsl, hsa]
            rfl
  · intro le sub
    refine ⟨_, _, aggregate_pair le sub sub rfl,
      products_pair le _ sub sub rfl, ?_, ?_⟩
    · simp [finalizeProduct, stepProduct_licenses, emptyProduct]
    · simp [finalizeProduct, stepProduct_amount, emptyProduct]

/-- Witness for C4 (amended) at a concrete transposition. -/
theorem c4_order_independence_witness :
    [c4SubUpper, c4SubLower].Perm [c4SubLower, c4SubUpper] ∧
    (vendorStats (aggregateVendorsFromSubscriptions leAny
        (some [c4SubUpper, c4SubLower])) (str "Vendor") =
      vendorStats (aggregateVendorsFromSubscriptions leAny
        (some [c4SubLower, c4SubUpper])) (str "Vendor") ∧
    productStats (aggregateVendorsFromSubscriptions leAny
        (some [c4SubUpper, c4SubLower])) (str "Vendor") (str "abc") =
      productStats (aggregateVendorsFromSubscriptions leAny
        (some [c4SubLower, c4SubUpper])) (str "Vendor") (str "abc")) :=
  ⟨List.Perm.swap c4SubLower c4SubUpper [],
    c4_order_independence.1 leAny leAny [c4SubUpper, c4SubLower]
      [c4SubLower, c4SubUpper] (List.Perm.swap c4SubLower c4SubUpper [])
      (str "Vendor") (str "abc")⟩

end PartnerBilling
